import Mathlib

/-!
Verification of a set-associative data-cache simulator with LRU replacement,
write-through and no-write-allocate policies.  The definitions below are a
shallow embedding of the C source (`A9.c`): cache state is a list of sets,
each a list of lines; every function mirrors the corresponding C function.
-/

set_option maxRecDepth 10000

namespace DataCacheSim

/-- One cache line: valid bit, tag bits, LRU counter (higher = more recent). -/
structure CacheLine where
  valid : Bool
  tag : Nat
  lru_counter : Nat
deriving DecidableEq, Repr

/-- The all-zero line every slot starts as (`init_cache` zeroes each field). -/
def blank : CacheLine := { valid := false, tag := 0, lru_counter := 0 }

/-- Cache configuration parameters. -/
structure CacheConfig where
  num_sets : Nat
  associativity : Nat
  line_size : Nat
  offset_bits : Nat
  index_bits : Nat
deriving DecidableEq, Repr

/-- Statistics tracking structure. -/
structure CacheStats where
  hits : Nat
  misses : Nat
  mem_reads : Nat
  mem_writes : Nat
deriving DecidableEq, Repr

/-- The all-zero statistics record the simulation starts with. -/
def zeroStats : CacheStats := { hits := 0, misses := 0, mem_reads := 0, mem_writes := 0 }

/-- One printed record of `access_cache`: the access kind and address, the
decomposed tag, index and offset, the hit flag and the memory-reference
count of the final two printf columns. -/
structure Outcome where
  access_type : Char
  address : Nat
  tag : Nat
  index : Nat
  offset : Nat
  hit : Bool
  mem_refs : Nat
deriving DecidableEq, Repr

/-- Fuel-carrying body of `log2_int`; fuel `n` suffices because the argument
halves at every step. -/
def log2_go : Nat → Nat → Nat
  | 0, _ => 0
  | fuel + 1, n => if 1 < n then log2_go fuel (n / 2) + 1 else 0

/-- Count of right shifts reducing `n` to at most 1 (`log2_int` in the C). -/
def log2_int (n : Nat) : Nat := log2_go n n

/-- Line `i` of a set, the all-zero line out of range. -/
def lineAt (s : List CacheLine) (i : Nat) : CacheLine := s.getD i blank

/-- Decrement step of `update_lru`: a valid line strictly above the accessed
counter moves down one slot. -/
def touch_dec (accessed_counter : Nat) (l : CacheLine) : CacheLine :=
  if l.valid = true ∧ accessed_counter < l.lru_counter then
    { l with lru_counter := l.lru_counter - 1 }
  else l

/-- Update LRU counters for a cache set (`update_lru` in the C source): every
valid line above the accessed line's prior counter is decremented, then the
accessed line becomes most recent. -/
def update_lru (s : List CacheLine) (associativity : Nat) (accessed_way : Nat) :
    List CacheLine :=
  let accessed_counter := (lineAt s accessed_way).lru_counter
  let s' := s.map (touch_dec accessed_counter)
  s'.set accessed_way { lineAt s' accessed_way with lru_counter := associativity - 1 }

/-- First invalid way of a set, scanning from way 0 (the cold-miss loop of
`find_lru_victim`). -/
def first_invalid : List CacheLine → Option Nat
  | [] => none
  | l :: rest => if l.valid = true then (first_invalid rest).map (· + 1) else some 0

/-- Minimum-counter scan of `find_lru_victim`: `w` and `m` carry the best way
and counter seen so far, `k` is the position of the head of the list. -/
def scan_min : List CacheLine → Nat → Nat → Nat → Nat
  | [], _, w, _ => w
  | l :: rest, k, w, m =>
      if l.lru_counter < m then scan_min rest (k + 1) k l.lru_counter
      else scan_min rest (k + 1) w m

/-- Find the LRU victim for replacement (`find_lru_victim` in the C source):
the first invalid way if any, else the first way holding the minimum counter. -/
def find_lru_victim (s : List CacheLine) : Nat :=
  match first_invalid s with
  | some i => i
  | none =>
      match s with
      | [] => 0
      | l :: rest => scan_min rest 1 0 l.lru_counter

/-- Tag search loop of `access_cache`: first way whose line is valid and holds
the tag. -/
def lookup : List CacheLine → Nat → Option Nat
  | [], _ => none
  | l :: rest, tag =>
      if l.valid = true ∧ l.tag = tag then some 0 else (lookup rest tag).map (· + 1)

/-- Offset field of an address: its low `offset_bits` bits. -/
def addr_offset (config : CacheConfig) (address : Nat) : Nat :=
  address % 2 ^ config.offset_bits

/-- Index field of an address: the `index_bits` bits above the offset. -/
def addr_index (config : CacheConfig) (address : Nat) : Nat :=
  (address >>> config.offset_bits) % 2 ^ config.index_bits

/-- Tag field of an address: all bits above offset and index. -/
def addr_tag (config : CacheConfig) (address : Nat) : Nat :=
  address >>> (config.offset_bits + config.index_bits)

/-- Simulate one cache access (`access_cache` in the C source).  The C masks
`address AND ((1 <<< bits) - 1)` are written `% 2 ^ bits`.  Returns the new
cache, the new statistics, and the printed record — `none` when the access
type is not one of R, r, W, w, in which case the C function prints nothing
and changes nothing. -/
def access_cache (cache : List (List CacheLine)) (config : CacheConfig)
    (access_type : Char) (address : Nat) (stats : CacheStats) :
    List (List CacheLine) × CacheStats × Option Outcome :=
  let offset := addr_offset config address
  let index := addr_index config address
  let tag := addr_tag config address
  let set := cache.getD index []
  if access_type = 'R' ∨ access_type = 'r' then
    match lookup set tag with
    | some hit_way =>
        (cache.set index (update_lru set config.associativity hit_way),
         { stats with hits := stats.hits + 1 },
         some { access_type := access_type, address := address, tag := tag,
                index := index, offset := offset, hit := true, mem_refs := 0 })
    | none =>
        let victim_way := find_lru_victim set
        let filled := set.set victim_way
          { lineAt set victim_way with valid := true, tag := tag }
        (cache.set index (update_lru filled config.associativity victim_way),
         { stats with misses := stats.misses + 1, mem_reads := stats.mem_reads + 1 },
         some { access_type := access_type, address := address, tag := tag,
                index := index, offset := offset, hit := false, mem_refs := 1 })
  else if access_type = 'W' ∨ access_type = 'w' then
    match lookup set tag with
    | some hit_way =>
        (cache.set index (update_lru set config.associativity hit_way),
         { stats with hits := stats.hits + 1, mem_writes := stats.mem_writes + 1 },
         some { access_type := access_type, address := address, tag := tag,
                index := index, offset := offset, hit := true, mem_refs := 1 })
    | none =>
        (cache,
         { stats with misses := stats.misses + 1, mem_writes := stats.mem_writes + 1 },
         some { access_type := access_type, address := address, tag := tag,
                index := index, offset := offset, hit := false, mem_refs := 1 })
  else
    (cache, stats, none)

/-- Initialize the cache: `num_sets` sets of `associativity` all-zero lines
(`init_cache` in the C source). -/
def init_cache (config : CacheConfig) : List (List CacheLine) :=
  List.replicate config.num_sets (List.replicate config.associativity blank)

/-- Build a configuration with the bit widths `init_cache` derives. -/
def mkConfig (num_sets associativity line_size : Nat) : CacheConfig :=
  { num_sets := num_sets, associativity := associativity, line_size := line_size,
    offset_bits := log2_int line_size, index_bits := log2_int num_sets }

/-- Validate cache configuration parameters (`validate_config` in the C
source).  The three raw integers are the `int` fields scanned from the
configuration file; the power-of-two test `n AND (n - 1)` runs only after
the positivity check, so `toNat` is exact there. -/
def validate_config (num_sets associativity line_size : Int) : Bool :=
  if num_sets ≤ 0 ∨ 8192 < num_sets then false
  else if associativity ≤ 0 ∨ 8 < associativity then false
  else if line_size < 8 ∨ 64 < line_size then false
  else if num_sets.toNat &&& (num_sets.toNat - 1) ≠ 0 then false
  else if line_size.toNat &&& (line_size.toNat - 1) ≠ 0 then false
  else true

/-- Process a list of `(access_type, address)` events in order, collecting the
printed records (the trace-replay loop of `main`). -/
def processTrace (config : CacheConfig) :
    List (Char × Nat) → List (List CacheLine) → CacheStats →
    List (List CacheLine) × CacheStats × List Outcome
  | [], cache, stats => (cache, stats, [])
  | (t, a) :: rest, cache, stats =>
      let step := access_cache cache config t a stats
      let next := processTrace config rest step.1 step.2.1
      (next.1, next.2.1, step.2.2.toList ++ next.2.2)

/-- Way touched by one access, if any: the hit way on a hit, the victim on a
read miss, nothing on a write miss or an unknown access type.  This mirrors
exactly the ways whose line `access_cache` passes to `update_lru`. -/
def touched_way (cache : List (List CacheLine)) (config : CacheConfig)
    (access_type : Char) (address : Nat) : Option (Nat × Nat) :=
  let index := addr_index config address
  let tag := addr_tag config address
  let set := cache.getD index []
  if access_type = 'R' ∨ access_type = 'r' then
    match lookup set tag with
    | some hit_way => some (index, hit_way)
    | none => some (index, find_lru_victim set)
  else if access_type = 'W' ∨ access_type = 'w' then
    match lookup set tag with
    | some hit_way => some (index, hit_way)
    | none => none
  else none

/-- Record in the ghost last-touch table the step number at which a way was
touched. -/
def ghost_touch (g : List (List Nat)) (index way time : Nat) : List (List Nat) :=
  g.set index ((g.getD index []).set way time)

/-- Run a trace through `access_cache` with a ghost last-touch table
alongside: entry `(index, way)` holds the step number of the most recent
load or hit of that way, and `time` counts processed events. -/
def runGhost (config : CacheConfig) :
    List (Char × Nat) → List (List CacheLine) → List (List Nat) → Nat →
    List (List CacheLine) × List (List Nat) × Nat
  | [], cache, g, time => (cache, g, time)
  | (t, a) :: rest, cache, g, time =>
      let g' := match touched_way cache config t a with
                | some (idx, w) => ghost_touch g idx w time
                | none => g
      runGhost config rest (access_cache cache config t a zeroStats).1 g' (time + 1)

/-- Ghost table matching `init_cache`: every entry zero. -/
def init_ghost (config : CacheConfig) : List (List Nat) :=
  List.replicate config.num_sets (List.replicate config.associativity 0)

/-- Number of valid lines of a set. -/
def numValid (s : List CacheLine) : Nat := s.countP (fun l => l.valid)

/-- Invariant of one cache set: the length is the associativity, invalid
lines keep counter zero, valid counters lie in the dense top range, and
valid lines carry pairwise distinct tags and counters. -/
def SetInvariant (assoc : Nat) (s : List CacheLine) : Prop :=
  s.length = assoc ∧
  (∀ i, i < s.length → (lineAt s i).valid = false → (lineAt s i).lru_counter = 0) ∧
  (∀ i, i < s.length → (lineAt s i).valid = true →
      assoc - numValid s ≤ (lineAt s i).lru_counter ∧ (lineAt s i).lru_counter < assoc) ∧
  (∀ i j, i < s.length → j < s.length → i ≠ j →
      (lineAt s i).valid = true → (lineAt s j).valid = true →
      (lineAt s i).tag ≠ (lineAt s j).tag ∧
      (lineAt s i).lru_counter ≠ (lineAt s j).lru_counter)

/-- Invariant of a whole cache: every set satisfies its set invariant. -/
def CacheInvariant (assoc : Nat) (cache : List (List CacheLine)) : Prop :=
  ∀ k, k < cache.length → SetInvariant assoc (cache.getD k [])

/-- Link between one set and its ghost last-touch column: recorded touch
steps of valid lines lie below the current step count, and the LRU counters
of valid lines are ordered exactly as their last-touch steps. -/
def GhostSetInv (s : List CacheLine) (gs : List Nat) (time : Nat) : Prop :=
  gs.length = s.length ∧
  (∀ i, i < s.length → (lineAt s i).valid = true → gs.getD i 0 < time) ∧
  (∀ i j, i < s.length → j < s.length →
      (lineAt s i).valid = true → (lineAt s j).valid = true →
      ((lineAt s i).lru_counter < (lineAt s j).lru_counter ↔ gs.getD i 0 < gs.getD j 0))

/-- Invariant of an instrumented run: the ghost table is as long as the
cache and every set satisfies both invariants. -/
def RunInv (assoc : Nat) (cache : List (List CacheLine)) (g : List (List Nat))
    (time : Nat) : Prop :=
  g.length = cache.length ∧
  ∀ k, k < cache.length →
    SetInvariant assoc (cache.getD k []) ∧
    GhostSetInv (cache.getD k []) (g.getD k []) time

/-- Configuration acceptance as the specification words it: `num_sets` in
[1, 8192] and a power of two, `associativity` in [1, 8] with no power-of-two
requirement, `line_size` in [8, 64] and a power of two. -/
def ConfigAccepted (num_sets associativity line_size : Int) : Prop :=
  (1 ≤ num_sets ∧ num_sets ≤ 8192 ∧ ∃ k : Nat, num_sets = 2 ^ k) ∧
  (1 ≤ associativity ∧ associativity ≤ 8) ∧
  (8 ≤ line_size ∧ line_size ≤ 64 ∧ ∃ k : Nat, line_size = 2 ^ k)

/-! Helper lemmas: pointwise descriptions of the set operations. -/

lemma lineAt_set_self {s : List CacheLine} {i : Nat} {x : CacheLine} (h : i < s.length) :
    lineAt (s.set i x) i = x := by
  simp [lineAt, List.getD_eq_getElem?_getD, List.getElem?_set_self h]

lemma lineAt_set_ne {s : List CacheLine} {i j : Nat} {x : CacheLine} (h : i ≠ j) :
    lineAt (s.set i x) j = lineAt s j := by
  simp [lineAt, List.getD_eq_getElem?_getD, List.getElem?_set_ne h]

lemma lineAt_map {f : CacheLine → CacheLine} {s : List CacheLine} {i : Nat}
    (h : i < s.length) : lineAt (s.map f) i = f (lineAt s i) := by
  simp [lineAt, List.getD_eq_getElem?_getD, List.getElem?_map, List.getElem?_eq_getElem h]

lemma lineAt_replicate {n i : Nat} {x : CacheLine} (h : i < n) :
    lineAt (List.replicate n x) i = x := by
  simp [lineAt, List.getD_eq_getElem?_getD, List.getElem?_replicate, h]

lemma lineAt_mem {s : List CacheLine} {i : Nat} (h : i < s.length) : lineAt s i ∈ s := by
  simp only [lineAt, List.getD_eq_getElem?_getD, List.getElem?_eq_getElem h, Option.getD_some]
  exact List.getElem_mem h

lemma touch_dec_valid (c : Nat) (l : CacheLine) : (touch_dec c l).valid = l.valid := by
  unfold touch_dec; split <;> rfl

lemma touch_dec_tag (c : Nat) (l : CacheLine) : (touch_dec c l).tag = l.tag := by
  unfold touch_dec; split <;> rfl

lemma touch_dec_self (l : CacheLine) : touch_dec l.lru_counter l = l := by
  unfold touch_dec
  split
  · next h => exact absurd h.2 (lt_irrefl _)
  · rfl

lemma update_lru_length (s : List CacheLine) (assoc w : Nat) :
    (update_lru s assoc w).length = s.length := by
  simp [update_lru]

lemma update_lru_lineAt_self {s : List CacheLine} {assoc w : Nat} (hw : w < s.length) :
    lineAt (update_lru s assoc w) w = { lineAt s w with lru_counter := assoc - 1 } := by
  unfold update_lru
  rw [lineAt_set_self (by simpa using hw), lineAt_map hw, touch_dec_self]

lemma update_lru_lineAt_ne {s : List CacheLine} {assoc w i : Nat}
    (hi : i < s.length) (hne : i ≠ w) :
    lineAt (update_lru s assoc w) i
      = touch_dec (lineAt s w).lru_counter (lineAt s i) := by
  unfold update_lru
  rw [lineAt_set_ne (fun h => hne h.symm), lineAt_map hi]

lemma update_lru_valid {s : List CacheLine} {assoc w i : Nat}
    (hi : i < s.length) (hw : w < s.length) :
    (lineAt (update_lru s assoc w) i).valid = (lineAt s i).valid := by
  by_cases h : i = w
  · subst h; rw [update_lru_lineAt_self hw]
  · rw [update_lru_lineAt_ne hi h, touch_dec_valid]

lemma update_lru_tag {s : List CacheLine} {assoc w i : Nat}
    (hi : i < s.length) (hw : w < s.length) :
    (lineAt (update_lru s assoc w) i).tag = (lineAt s i).tag := by
  by_cases h : i = w
  · subst h; rw [update_lru_lineAt_self hw]
  · rw [update_lru_lineAt_ne hi h, touch_dec_tag]

lemma update_lru_ctr_ne {s : List CacheLine} {assoc w i : Nat}
    (hi : i < s.length) (hne : i ≠ w) :
    (lineAt (update_lru s assoc w) i).lru_counter
      = if (lineAt s i).valid = true ∧ (lineAt s w).lru_counter < (lineAt s i).lru_counter
        then (lineAt s i).lru_counter - 1 else (lineAt s i).lru_counter := by
  rw [update_lru_lineAt_ne hi hne]
  unfold touch_dec
  split <;> rfl

/-! Helper lemmas: counting valid lines. -/

lemma numValid_le_length (s : List CacheLine) : numValid s ≤ s.length :=
  List.countP_le_length _

lemma one_le_numValid {s : List CacheLine} {i : Nat} (hi : i < s.length)
    (hv : (lineAt s i).valid = true) : 1 ≤ numValid s := by
  have : 0 < numValid s := List.countP_pos_iff.mpr ⟨lineAt s i, lineAt_mem hi, hv⟩
  omega

lemma numValid_set (s : List CacheLine) (i : Nat) (x : CacheLine) (h : i < s.length) :
    numValid (s.set i x) + (if (lineAt s i).valid then 1 else 0)
      = numValid s + (if x.valid then 1 else 0) := by
  induction s generalizing i with
  | nil => simp at h
  | cons a rest ih =>
    cases i with
    | zero =>
      simp only [List.set_cons_zero, numValid, List.countP_cons, lineAt,
        List.getD_cons_zero]
      omega
    | succ n =>
      have hn : n < rest.length := by simpa using h
      have := ih n hn
      simp only [List.set_cons_succ, numValid, List.countP_cons, lineAt,
        List.getD_cons_succ] at *
      omega

lemma numValid_map_touch (c : Nat) (s : List CacheLine) :
    numValid (s.map (touch_dec c)) = numValid s := by
  unfold numValid
  rw [List.countP_map]
  exact List.countP_congr (fun l _ => by simp [Function.comp, touch_dec_valid])

lemma numValid_set_of_valid_eq {s : List CacheLine} {i : Nat} {x : CacheLine}
    (h : i < s.length) (hv : x.valid = (lineAt s i).valid) :
    numValid (s.set i x) = numValid s := by
  have := numValid_set s i x h
  rw [hv] at this
  omega

lemma numValid_update_lru {s : List CacheLine} {assoc w : Nat} (hw : w < s.length) :
    numValid (update_lru s assoc w) = numValid s := by
  have h2 : numValid ((s.map (touch_dec (lineAt s w).lru_counter)).set w
      { lineAt (s.map (touch_dec (lineAt s w).lru_counter)) w with
          lru_counter := assoc - 1 })
      = numValid (s.map (touch_dec (lineAt s w).lru_counter)) :=
    numValid_set_of_valid_eq (by simpa using hw) rfl
  rw [numValid_map_touch] at h2
  unfold update_lru
  exact h2

/-! Helper lemmas: the scan loops of `find_lru_victim` and `lookup`. -/

lemma first_invalid_none {s : List CacheLine} (h : first_invalid s = none) :
    ∀ i, i < s.length → (lineAt s i).valid = true := by
  induction s with
  | nil => intro i hi; simp at hi
  | cons a rest ih =>
    intro i hi
    unfold first_invalid at h
    by_cases ha : a.valid = true
    · rw [if_pos ha] at h
      cases i with
      | zero => simpa [lineAt] using ha
      | succ n =>
        have : first_invalid rest = none := by
          cases hfi : first_invalid rest <;> simp [hfi] at h ⊢
        exact (by simpa [lineAt] using ih this n (by simpa using hi))
    · rw [if_neg ha] at h; exact absurd h (by simp)

lemma first_invalid_eq_none {s : List CacheLine}
    (h : ∀ i, i < s.length → (lineAt s i).valid = true) : first_invalid s = none := by
  induction s with
  | nil => rfl
  | cons a rest ih =>
    have ha : a.valid = true := by simpa [lineAt] using h 0 (by simp)
    unfold first_invalid
    rw [if_pos ha]
    have : first_invalid rest = none :=
      ih (fun i hi => by simpa [lineAt] using h (i + 1) (by simpa using hi))
    simp [this]

lemma first_invalid_some {s : List CacheLine} {i : Nat} (h : first_invalid s = some i) :
    i < s.length ∧ (lineAt s i).valid = false ∧ ∀ j, j < i → (lineAt s j).valid = true := by
  induction s generalizing i with
  | nil => exact absurd h (by simp [first_invalid])
  | cons a rest ih =>
    unfold first_invalid at h
    by_cases ha : a.valid = true
    · rw [if_pos ha] at h
      cases hfi : first_invalid rest with
      | none => rw [hfi] at h; exact absurd h (by simp)
      | some m =>
        rw [hfi] at h
        simp only [Option.map_some', Option.some.injEq] at h
        subst h
        obtain ⟨hm, hmv, hmj⟩ := ih hfi
        refine ⟨by simpa using Nat.succ_lt_succ hm, by simpa [lineAt] using hmv, ?_⟩
        intro j hj
        cases j with
        | zero => simpa [lineAt] using ha
        | succ n => simpa [lineAt] using hmj n (by omega)
    · rw [if_neg ha] at h
      simp only [Option.some.injEq] at h
      subst h
      refine ⟨by simp, ?_, fun j hj => by omega⟩
      simp only [lineAt, List.getD_cons_zero]
      simpa using ha

lemma scan_min_spec (l : List CacheLine) (k w m : Nat) :
    (scan_min l k w m = w ∧ ∀ j, j < l.length → m ≤ (lineAt l j).lru_counter)
    ∨ (∃ j, j < l.length ∧ scan_min l k w m = k + j ∧ (lineAt l j).lru_counter < m ∧
        (∀ j2, j2 < l.length → (lineAt l j).lru_counter ≤ (lineAt l j2).lru_counter) ∧
        (∀ j2, j2 < j → (lineAt l j).lru_counter < (lineAt l j2).lru_counter)) := by
  induction l generalizing k w m with
  | nil => exact Or.inl ⟨rfl, fun j hj => by simp at hj⟩
  | cons a rest ih =>
    unfold scan_min
    by_cases ha : a.lru_counter < m
    · rw [if_pos ha]
      rcases ih (k + 1) k a.lru_counter with ⟨heq, hall⟩ | ⟨j, hj, heq, hlt, hmin, hfirst⟩
      · refine Or.inr ⟨0, by simp, by simpa using heq, by simpa [lineAt] using ha, ?_, ?_⟩
        · intro j2 hj2
          cases j2 with
          | zero => exact le_refl _
          | succ n => simpa [lineAt] using hall n (by simpa using hj2)
        · intro j2 hj2; omega
      · refine Or.inr ⟨j + 1, by simpa using hj, by omega, ?_, ?_, ?_⟩
        · simp only [lineAt, List.getD_cons_succ]
          exact lt_trans hlt ha
        · intro j2 hj2
          cases j2 with
          | zero => simpa [lineAt] using le_of_lt hlt
          | succ n => simpa [lineAt] using hmin n (by simpa using hj2)
        · intro j2 hj2
          cases j2 with
          | zero => simpa [lineAt] using hlt
          | succ n => simpa [lineAt] using hfirst n (by omega)
    · rw [if_neg ha]
      rcases ih (k + 1) w m with ⟨heq, hall⟩ | ⟨j, hj, heq, hlt, hmin, hfirst⟩
      · refine Or.inl ⟨heq, ?_⟩
        intro j hj
        cases j with
        | zero => simpa [lineAt] using le_of_not_lt ha
        | succ n => simpa [lineAt] using hall n (by simpa using hj)
      · refine Or.inr ⟨j + 1, by simpa using hj, by omega, ?_, ?_, ?_⟩
        · simpa [lineAt] using hlt
        · intro j2 hj2
          cases j2 with
          | zero =>
            simp only [lineAt, List.getD_cons_succ, List.getD_cons_zero]
            simp only [lineAt] at hlt
            have := le_of_not_lt ha
            omega
          | succ n => simpa [lineAt] using hmin n (by simpa using hj2)
        · intro j2 hj2
          cases j2 with
          | zero =>
            simp only [lineAt, List.getD_cons_succ, List.getD_cons_zero]
            simp only [lineAt] at hlt
            have := le_of_not_lt ha
            omega
          | succ n => simpa [lineAt] using hfirst n (by omega)

lemma find_lru_victim_full {s : List CacheLine}
    (hfull : ∀ i, i < s.length → (lineAt s i).valid = true) (h0 : 0 < s.length) :
    find_lru_victim s < s.length ∧
    (∀ i, i < s.length →
        (lineAt s (find_lru_victim s)).lru_counter ≤ (lineAt s i).lru_counter) ∧
    (∀ i, i < find_lru_victim s →
        (lineAt s (find_lru_victim s)).lru_counter < (lineAt s i).lru_counter) := by
  have hnone : first_invalid s = none := first_invalid_eq_none hfull
  cases s with
  | nil => simp at h0
  | cons a rest =>
    have hv : find_lru_victim (a :: rest) = scan_min rest 1 0 a.lru_counter := by
      unfold find_lru_victim
      rw [hnone]
    rw [hv]
    rcases scan_min_spec rest 1 0 a.lru_counter with ⟨heq, hall⟩ | ⟨j, hj, heq, hlt, hmin, hfirst⟩
    · rw [heq]
      refine ⟨by simp, ?_, fun i hi => by omega⟩
      intro i hi
      cases i with
      | zero => exact le_refl _
      | succ n => simpa [lineAt] using hall n (by simpa using hi)
    · rw [heq]
      have h1j : lineAt (a :: rest) (1 + j) = lineAt rest j := by
        rw [Nat.add_comm]
        simp [lineAt]
      rw [h1j]
      refine ⟨by simp only [List.length_cons]; omega, ?_, ?_⟩
      · intro i hi
        cases i with
        | zero => simpa [lineAt] using le_of_lt hlt
        | succ n => simpa [lineAt] using hmin n (by simpa using hi)
      · intro i hi
        cases i with
        | zero => simpa [lineAt] using hlt
        | succ n =>
          have : n < j := by omega
          simpa [lineAt] using hfirst n this

lemma find_lru_victim_invalid {s : List CacheLine} {i : Nat}
    (h : first_invalid s = some i) : find_lru_victim s = i := by
  unfold find_lru_victim
  rw [h]

lemma find_lru_victim_lt {s : List CacheLine} (h0 : 0 < s.length) :
    find_lru_victim s < s.length := by
  cases hfi : first_invalid s with
  | some i => rw [find_lru_victim_invalid hfi]; exact (first_invalid_some hfi).1
  | none => exact (find_lru_victim_full (first_invalid_none hfi) h0).1

lemma lookup_none {s : List CacheLine} {tag : Nat} (h : lookup s tag = none) :
    ∀ i, i < s.length → (lineAt s i).valid = true → (lineAt s i).tag ≠ tag := by
  induction s with
  | nil => intro i hi; simp at hi
  | cons a rest ih =>
    unfold lookup at h
    by_cases ha : a.valid = true ∧ a.tag = tag
    · rw [if_pos ha] at h; exact absurd h (by simp)
    · rw [if_neg ha] at h
      have hrest : lookup rest tag = none := by
        cases hl : lookup rest tag <;> simp [hl] at h ⊢
      intro i hi hv
      cases i with
      | zero =>
        simp only [lineAt, List.getD_cons_zero] at hv ⊢
        intro htag
        exact ha ⟨hv, htag⟩
      | succ n => simpa [lineAt] using ih hrest n (by simpa using hi) (by simpa [lineAt] using hv)

lemma lookup_some {s : List CacheLine} {tag i : Nat} (h : lookup s tag = some i) :
    i < s.length ∧ (lineAt s i).valid = true ∧ (lineAt s i).tag = tag := by
  induction s generalizing i with
  | nil => exact absurd h (by simp [lookup])
  | cons a rest ih =>
    unfold lookup at h
    by_cases ha : a.valid = true ∧ a.tag = tag
    · rw [if_pos ha] at h
      simp only [Option.some.injEq] at h
      subst h
      exact ⟨by simp, by simpa [lineAt] using ha.1, by simpa [lineAt] using ha.2⟩
    · rw [if_neg ha] at h
      cases hl : lookup rest tag with
      | none => rw [hl] at h; exact absurd h (by simp)
      | some m =>
        rw [hl] at h
        simp only [Option.map_some', Option.some.injEq] at h
        subst h
        obtain ⟨hm, hmv, hmt⟩ := ih hl
        exact ⟨by simpa using Nat.succ_lt_succ hm, by simpa [lineAt] using hmv,
          by simpa [lineAt] using hmt⟩

/-! Helper lemmas: preservation of the set invariant. -/

lemma update_lru_ctr_self {s : List CacheLine} {assoc w : Nat} (hw : w < s.length) :
    (lineAt (update_lru s assoc w) w).lru_counter = assoc - 1 := by
  rw [update_lru_lineAt_self hw]

lemma update_lru_ctr_ne_valid {s : List CacheLine} {assoc w i : Nat}
    (hi : i < s.length) (hne : i ≠ w) (hvi : (lineAt s i).valid = true) :
    (lineAt (update_lru s assoc w) i).lru_counter
      = if (lineAt s w).lru_counter < (lineAt s i).lru_counter
        then (lineAt s i).lru_counter - 1 else (lineAt s i).lru_counter := by
  rw [update_lru_ctr_ne hi hne]
  simp [hvi]

lemma update_lru_ctr_ne_invalid {s : List CacheLine} {assoc w i : Nat}
    (hi : i < s.length) (hne : i ≠ w) (hiv : (lineAt s i).valid = false) :
    (lineAt (update_lru s assoc w) i).lru_counter = (lineAt s i).lru_counter := by
  rw [update_lru_ctr_ne hi hne]
  simp [hiv]

lemma setinv_touch {assoc : Nat} {s : List CacheLine} {w : Nat}
    (hinv : SetInvariant assoc s) (hw : w < s.length)
    (hwv : (lineAt s w).valid = true) :
    SetInvariant assoc (update_lru s assoc w) := by
  obtain ⟨hlen, hinvd, hbnd, hdist⟩ := hinv
  have hk1 : 1 ≤ numValid s := one_le_numValid hw hwv
  have hkle : numValid s ≤ s.length := numValid_le_length s
  have hwb := hbnd w hw hwv
  have hulen : (update_lru s assoc w).length = s.length := update_lru_length s assoc w
  have hnv : numValid (update_lru s assoc w) = numValid s := numValid_update_lru hw
  have hassoc1 : 1 ≤ assoc := by omega
  refine ⟨by rw [hulen, hlen], ?_, ?_, ?_⟩
  · intro i hi hiv
    rw [hulen] at hi
    rw [update_lru_valid hi hw] at hiv
    have hne : i ≠ w := by
      intro h
      rw [h, hwv] at hiv
      exact Bool.noConfusion hiv
    rw [update_lru_ctr_ne_invalid hi hne hiv]
    exact hinvd i hi hiv
  · intro i hi hvi
    rw [hulen] at hi
    rw [update_lru_valid hi hw] at hvi
    rw [hnv]
    by_cases hiw : i = w
    · rw [hiw, update_lru_ctr_self hw]
      exact ⟨by omega, by omega⟩
    · rw [update_lru_ctr_ne_valid hi hiw hvi]
      have hib := hbnd i hi hvi
      split_ifs with hcond
      · omega
      · omega
  · intro i j hi hj hij hvi hvj
    rw [hulen] at hi hj
    rw [update_lru_valid hi hw] at hvi
    rw [update_lru_valid hj hw] at hvj
    constructor
    · rw [update_lru_tag hi hw, update_lru_tag hj hw]
      exact (hdist i j hi hj hij hvi hvj).1
    · by_cases hiw : i = w
      · have hjw : j ≠ w := fun h => hij (hiw.trans h.symm)
        rw [hiw, update_lru_ctr_self hw, update_lru_ctr_ne_valid hj hjw hvj]
        have hjb := hbnd j hj hvj
        have hjd := (hdist j w hj hw hjw hvj hwv).2
        split_ifs with hcond
        · omega
        · omega
      · by_cases hjw : j = w
        · rw [hjw, update_lru_ctr_self hw, update_lru_ctr_ne_valid hi hiw hvi]
          have hib := hbnd i hi hvi
          have hid := (hdist i w hi hw hiw hvi hwv).2
          split_ifs with hcond
          · omega
          · omega
        · rw [update_lru_ctr_ne_valid hi hiw hvi, update_lru_ctr_ne_valid hj hjw hvj]
          have hib := hbnd i hi hvi
          have hjb := hbnd j hj hvj
          have hijd := (hdist i j hi hj hij hvi hvj).2
          have hid := (hdist i w hi hw hiw hvi hwv).2
          have hjd := (hdist j w hj hw hjw hvj hwv).2
          split_ifs with h1 h2 h2
          · omega
          · omega
          · omega
          · omega

lemma setinv_setline {assoc : Nat} {s : List CacheLine} {v : Nat} {x : CacheLine}
    (hinv : SetInvariant assoc s) (hv : v < s.length)
    (hvv : (lineAt s v).valid = true)
    (hxv : x.valid = true)
    (hxc : x.lru_counter = (lineAt s v).lru_counter)
    (hfresh : ∀ i, i < s.length → (lineAt s i).valid = true → (lineAt s i).tag ≠ x.tag) :
    SetInvariant assoc (s.set v x) := by
  obtain ⟨hlen, hinvd, hbnd, hdist⟩ := hinv
  have hslen : (s.set v x).length = s.length := List.length_set s v x
  have hnv : numValid (s.set v x) = numValid s :=
    numValid_set_of_valid_eq hv (hxv.trans hvv.symm)
  refine ⟨by rw [hslen, hlen], ?_, ?_, ?_⟩
  · intro i hi hiv
    rw [hslen] at hi
    by_cases hivq : i = v
    · rw [hivq, lineAt_set_self hv, hxv] at hiv
      exact Bool.noConfusion hiv
    · rw [lineAt_set_ne (fun h => hivq h.symm)] at hiv ⊢
      exact hinvd i hi hiv
  · intro i hi hvi
    rw [hslen] at hi
    rw [hnv]
    by_cases hivq : i = v
    · rw [hivq, lineAt_set_self hv, hxc]
      exact hbnd v hv hvv
    · rw [lineAt_set_ne (fun h => hivq h.symm)] at hvi ⊢
      exact hbnd i hi hvi
  · intro i j hi hj hij hvi hvj
    rw [hslen] at hi hj
    by_cases hivq : i = v
    · have hjv : j ≠ v := fun h => hij (hivq.trans h.symm)
      rw [hivq, lineAt_set_self hv]
      rw [lineAt_set_ne (fun h => hjv h.symm)] at hvj ⊢
      constructor
      · exact fun h => hfresh j hj hvj h.symm
      · rw [hxc]
        exact (hdist v j hv hj (fun h => hjv h.symm) hvv hvj).2
    · by_cases hjvq : j = v
      · rw [lineAt_set_ne (fun h => hivq h.symm)] at hvi
        rw [hjvq, lineAt_set_self hv, lineAt_set_ne (fun h => hivq h.symm)]
        constructor
        · exact hfresh i hi hvi
        · rw [hxc]
          exact (hdist i v hi hv hivq hvi hvv).2
      · rw [lineAt_set_ne (fun h => hivq h.symm)] at hvi
        rw [lineAt_set_ne (fun h => hjvq h.symm)] at hvj
        rw [lineAt_set_ne (fun h => hivq h.symm), lineAt_set_ne (fun h => hjvq h.symm)]
        exact hdist i j hi hj hij hvi hvj

lemma setinv_fill {assoc : Nat} {s : List CacheLine} {v tag : Nat}
    (hinv : SetInvariant assoc s) (hv : v < s.length)
    (hvi : (lineAt s v).valid = false)
    (hfresh : ∀ i, i < s.length → (lineAt s i).valid = true → (lineAt s i).tag ≠ tag) :
    SetInvariant assoc
      (update_lru (s.set v { lineAt s v with valid := true, tag := tag }) assoc v) := by
  obtain ⟨hlen, hinvd, hbnd, hdist⟩ := hinv
  have hzero : (lineAt s v).lru_counter = 0 := hinvd v hv hvi
  set x : CacheLine := { lineAt s v with valid := true, tag := tag } with hxdef
  have hxv : x.valid = true := rfl
  have hxt : x.tag = tag := rfl
  have hxc : x.lru_counter = (lineAt s v).lru_counter := rfl
  set s1 := s.set v x with hs1def
  have hs1len : s1.length = s.length := List.length_set s v x
  have hv1 : v < s1.length := by rw [hs1len]; exact hv
  have hAtV : lineAt s1 v = x := lineAt_set_self hv
  have hAtNe : ∀ i, i ≠ v → lineAt s1 i = lineAt s i :=
    fun i hi => lineAt_set_ne (fun h => hi h.symm)
  have hnv1 : numValid s1 = numValid s + 1 := by
    have h := numValid_set s v x hv
    rw [← hs1def] at h
    rw [hvi, hxv] at h
    simp at h
    omega
  have hkup : numValid s + 1 ≤ s.length := by
    have := numValid_le_length s1
    omega
  have hulen : (update_lru s1 assoc v).length = s.length := by
    rw [update_lru_length, hs1len]
  have hnvu : numValid (update_lru s1 assoc v) = numValid s + 1 := by
    rw [numValid_update_lru hv1, hnv1]
  have hassoc1 : 1 ≤ assoc := by omega
  have hvalid_u : ∀ i, i < s.length →
      (lineAt (update_lru s1 assoc v) i).valid = (lineAt s1 i).valid :=
    fun i hi => update_lru_valid (by rw [hs1len]; exact hi) hv1
  have htag_u : ∀ i, i < s.length →
      (lineAt (update_lru s1 assoc v) i).tag = (lineAt s1 i).tag :=
    fun i hi => update_lru_tag (by rw [hs1len]; exact hi) hv1
  have hctr_v : (lineAt (update_lru s1 assoc v) v).lru_counter = assoc - 1 :=
    update_lru_ctr_self hv1
  have hctr_valid : ∀ i, i < s.length → i ≠ v → (lineAt s i).valid = true →
      (lineAt (update_lru s1 assoc v) i).lru_counter = (lineAt s i).lru_counter - 1 := by
    intro i hi hne hvi2
    have hi1 : i < s1.length := by rw [hs1len]; exact hi
    rw [update_lru_ctr_ne_valid hi1 hne (by rw [hAtNe i hne]; exact hvi2)]
    rw [hAtV, hAtNe i hne, hxc, hzero]
    have hib := hbnd i hi hvi2
    rw [if_pos (by omega)]
  have hctr_invalid : ∀ i, i < s.length → i ≠ v → (lineAt s i).valid = false →
      (lineAt (update_lru s1 assoc v) i).lru_counter = (lineAt s i).lru_counter := by
    intro i hi hne hvi2
    have hi1 : i < s1.length := by rw [hs1len]; exact hi
    rw [update_lru_ctr_ne_invalid hi1 hne (by rw [hAtNe i hne]; exact hvi2)]
    rw [hAtNe i hne]
  refine ⟨by rw [hulen, hlen], ?_, ?_, ?_⟩
  · intro i hi hiv
    rw [hulen] at hi
    rw [hvalid_u i hi] at hiv
    have hne : i ≠ v := by
      intro h
      rw [h, hAtV, hxv] at hiv
      exact Bool.noConfusion hiv
    rw [hAtNe i hne] at hiv
    rw [hctr_invalid i hi hne hiv]
    exact hinvd i hi hiv
  · intro i hi hvi2
    rw [hulen] at hi
    rw [hvalid_u i hi] at hvi2
    rw [hnvu]
    by_cases hne : i = v
    · rw [hne, hctr_v]
      exact ⟨by omega, by omega⟩
    · rw [hAtNe i hne] at hvi2
      rw [hctr_valid i hi hne hvi2]
      have hib := hbnd i hi hvi2
      exact ⟨by omega, by omega⟩
  · intro i j hi hj hij hvi2 hvj2
    rw [hulen] at hi hj
    rw [hvalid_u i hi] at hvi2
    rw [hvalid_u j hj] at hvj2
    by_cases hiv : i = v
    · have hjv : j ≠ v := fun h => hij (hiv.trans h.symm)
      rw [hAtNe j hjv] at hvj2
      have hjb := hbnd j hj hvj2
      constructor
      · rw [htag_u i hi, htag_u j hj, hiv, hAtV, hxt, hAtNe j hjv]
        exact fun h => hfresh j hj hvj2 h.symm
      · rw [hiv, hctr_v, hctr_valid j hj hjv hvj2]
        omega
    · by_cases hjv : j = v
      · rw [hAtNe i hiv] at hvi2
        have hib := hbnd i hi hvi2
        constructor
        · rw [htag_u i hi, htag_u j hj, hjv, hAtV, hxt, hAtNe i hiv]
          exact hfresh i hi hvi2
        · rw [hjv, hctr_v, hctr_valid i hi hiv hvi2]
          omega
      · rw [hAtNe i hiv] at hvi2
        rw [hAtNe j hjv] at hvj2
        have hib := hbnd i hi hvi2
        have hjb := hbnd j hj hvj2
        constructor
        · rw [htag_u i hi, htag_u j hj, hAtNe i hiv, hAtNe j hjv]
          exact (hdist i j hi hj hij hvi2 hvj2).1
        · rw [hctr_valid i hi hiv hvi2, hctr_valid j hj hjv hvj2]
          have := (hdist i j hi hj hij hvi2 hvj2).2
          omega

lemma setinv_read_miss {assoc : Nat} {s : List CacheLine} {tag : Nat}
    (hinv : SetInvariant assoc s) (hmiss : lookup s tag = none) :
    SetInvariant assoc
      (update_lru (s.set (find_lru_victim s)
        { lineAt s (find_lru_victim s) with valid := true, tag := tag }) assoc
        (find_lru_victim s)) := by
  rcases Nat.eq_zero_or_pos s.length with h0 | h0
  · have hsnil : s = [] := List.length_eq_zero.mp h0
    subst hsnil
    exact hinv
  · cases hfi : first_invalid s with
    | some i =>
      rw [find_lru_victim_invalid hfi]
      obtain ⟨hlt, hinvv, _⟩ := first_invalid_some hfi
      exact setinv_fill hinv hlt hinvv (lookup_none hmiss)
    | none =>
      have hfull := first_invalid_none hfi
      have hvlt := find_lru_victim_lt h0
      have hvv := hfull _ hvlt
      have hfresh : ∀ i, i < s.length → (lineAt s i).valid = true →
          (lineAt s i).tag ≠ ({ lineAt s (find_lru_victim s) with
            valid := true, tag := tag } : CacheLine).tag :=
        fun i hi hv => lookup_none hmiss i hi hv
      have h1 := @setinv_setline assoc s (find_lru_victim s)
        { lineAt s (find_lru_victim s) with valid := true, tag := tag }
        hinv hvlt hvv rfl rfl hfresh
      have hvlt1 : find_lru_victim s < (s.set (find_lru_victim s)
          { lineAt s (find_lru_victim s) with valid := true, tag := tag }).length := by
        rw [List.length_set]; exact hvlt
      have hvv1 : (lineAt (s.set (find_lru_victim s)
          { lineAt s (find_lru_victim s) with valid := true, tag := tag })
          (find_lru_victim s)).valid = true := by
        rw [lineAt_set_self hvlt]
      exact setinv_touch h1 hvlt1 hvv1

/-! Helper lemmas: branch characterizations of `access_cache`. -/

lemma access_cache_read_hit {cache : List (List CacheLine)} {config : CacheConfig}
    {t : Char} {a : Nat} {stats : CacheStats} {w : Nat}
    (ht : t = 'R' ∨ t = 'r')
    (hl : lookup (cache.getD (addr_index config a) []) (addr_tag config a) = some w) :
    access_cache cache config t a stats =
      (cache.set (addr_index config a)
         (update_lru (cache.getD (addr_index config a) []) config.associativity w),
       { stats with hits := stats.hits + 1 },
       some { access_type := t, address := a, tag := addr_tag config a,
              index := addr_index config a, offset := addr_offset config a,
              hit := true, mem_refs := 0 }) := by
  simp only [access_cache]
  rw [if_pos ht, hl]

lemma access_cache_read_miss {cache : List (List CacheLine)} {config : CacheConfig}
    {t : Char} {a : Nat} {stats : CacheStats}
    (ht : t = 'R' ∨ t = 'r')
    (hl : lookup (cache.getD (addr_index config a) []) (addr_tag config a) = none) :
    access_cache cache config t a stats =
      (cache.set (addr_index config a)
         (update_lru ((cache.getD (addr_index config a) []).set
             (find_lru_victim (cache.getD (addr_index config a) []))
             { lineAt (cache.getD (addr_index config a) [])
                 (find_lru_victim (cache.getD (addr_index config a) [])) with
               valid := true, tag := addr_tag config a })
           config.associativity
           (find_lru_victim (cache.getD (addr_index config a) []))),
       { stats with misses := stats.misses + 1, mem_reads := stats.mem_reads + 1 },
       some { access_type := t, address := a, tag := addr_tag config a,
              index := addr_index config a, offset := addr_offset config a,
              hit := false, mem_refs := 1 }) := by
  simp only [access_cache]
  rw [if_pos ht, hl]

lemma access_cache_write_hit {cache : List (List CacheLine)} {config : CacheConfig}
    {t : Char} {a : Nat} {stats : CacheStats} {w : Nat}
    (ht : t = 'W' ∨ t = 'w')
    (hl : lookup (cache.getD (addr_index config a) []) (addr_tag config a) = some w) :
    access_cache cache config t a stats =
      (cache.set (addr_index config a)
         (update_lru (cache.getD (addr_index config a) []) config.associativity w),
       { stats with hits := stats.hits + 1, mem_writes := stats.mem_writes + 1 },
       some { access_type := t, address := a, tag := addr_tag config a,
              index := addr_index config a, offset := addr_offset config a,
              hit := true, mem_refs := 1 }) := by
  have hnr : ¬(t = 'R' ∨ t = 'r') := by
    rcases ht with h | h <;> subst h <;> decide
  simp only [access_cache]
  rw [if_neg hnr, if_pos ht, hl]

lemma access_cache_write_miss {cache : List (List CacheLine)} {config : CacheConfig}
    {t : Char} {a : Nat} {stats : CacheStats}
    (ht : t = 'W' ∨ t = 'w')
    (hl : lookup (cache.getD (addr_index config a) []) (addr_tag config a) = none) :
    access_cache cache config t a stats =
      (cache,
       { stats with misses := stats.misses + 1, mem_writes := stats.mem_writes + 1 },
       some { access_type := t, address := a, tag := addr_tag config a,
              index := addr_index config a, offset := addr_offset config a,
              hit := false, mem_refs := 1 }) := by
  have hnr : ¬(t = 'R' ∨ t = 'r') := by
    rcases ht with h | h <;> subst h <;> decide
  simp only [access_cache]
  rw [if_neg hnr, if_pos ht, hl]

lemma access_cache_unknown {cache : List (List CacheLine)} {config : CacheConfig}
    {t : Char} {a : Nat} {stats : CacheStats}
    (hnr : ¬(t = 'R' ∨ t = 'r')) (hnw : ¬(t = 'W' ∨ t = 'w')) :
    access_cache cache config t a stats = (cache, stats, none) := by
  simp only [access_cache]
  rw [if_neg hnr, if_neg hnw]

/-! Helper lemmas: whole-cache indexing and invariant propagation. -/

lemma getD_set_self {α : Type} {l : List α} {i : Nat} {x d : α} (h : i < l.length) :
    (l.set i x).getD i d = x := by
  simp [List.getD_eq_getElem?_getD, List.getElem?_set_self h]

lemma getD_set_ne {α : Type} {l : List α} {i j : Nat} {x d : α} (h : i ≠ j) :
    (l.set i x).getD j d = l.getD j d := by
  simp [List.getD_eq_getElem?_getD, List.getElem?_set_ne h]

lemma getD_replicate {α : Type} {n i : Nat} {x d : α} (h : i < n) :
    (List.replicate n x).getD i d = x := by
  simp [List.getD_eq_getElem?_getD, List.getElem?_replicate, h]

lemma access_cache_length {cache : List (List CacheLine)} {config : CacheConfig}
    {t : Char} {a : Nat} {stats : CacheStats} :
    (access_cache cache config t a stats).1.length = cache.length := by
  by_cases hr : t = 'R' ∨ t = 'r'
  · cases hl : lookup (cache.getD (addr_index config a) []) (addr_tag config a) with
    | some w => rw [access_cache_read_hit hr hl]; exact List.length_set cache _ _
    | none => rw [access_cache_read_miss hr hl]; exact List.length_set cache _ _
  · by_cases hw : t = 'W' ∨ t = 'w'
    · cases hl : lookup (cache.getD (addr_index config a) []) (addr_tag config a) with
      | some w => rw [access_cache_write_hit hw hl]; exact List.length_set cache _ _
      | none => rw [access_cache_write_miss hw hl]
    · rw [access_cache_unknown hr hw]

lemma cacheInv_init (config : CacheConfig) :
    CacheInvariant config.associativity (init_cache config) := by
  intro k hk
  unfold init_cache at hk ⊢
  rw [List.length_replicate] at hk
  rw [getD_replicate hk]
  refine ⟨List.length_replicate _ _, ?_, ?_, ?_⟩
  · intro i hi hiv
    rw [List.length_replicate] at hi
    rw [lineAt_replicate hi]
    rfl
  · intro i hi hvi
    rw [List.length_replicate] at hi
    rw [lineAt_replicate hi] at hvi
    exact absurd hvi (by decide)
  · intro i j hi hj hij hvi hvj
    rw [List.length_replicate] at hi
    rw [lineAt_replicate hi] at hvi
    exact absurd hvi (by decide)

lemma cacheInv_set {assoc : Nat} {cache : List (List CacheLine)} {idx : Nat}
    {s' : List CacheLine} (hinv : CacheInvariant assoc cache)
    (hs' : idx < cache.length → SetInvariant assoc s') :
    CacheInvariant assoc (cache.set idx s') := by
  intro k hk
  rw [List.length_set] at hk
  by_cases hkq : k = idx
  · subst hkq
    rw [getD_set_self hk]
    exact hs' hk
  · rw [getD_set_ne (fun h => hkq h.symm)]
    exact hinv k hk

lemma cacheInv_access {cache : List (List CacheLine)} {config : CacheConfig}
    {t : Char} {a : Nat} {stats : CacheStats}
    (hinv : CacheInvariant config.associativity cache) :
    CacheInvariant config.associativity (access_cache cache config t a stats).1 := by
  by_cases hr : t = 'R' ∨ t = 'r'
  · cases hl : lookup (cache.getD (addr_index config a) []) (addr_tag config a) with
    | some w =>
      rw [access_cache_read_hit hr hl]
      exact cacheInv_set hinv (fun hidx =>
        setinv_touch (hinv _ hidx) (lookup_some hl).1 (lookup_some hl).2.1)
    | none =>
      rw [access_cache_read_miss hr hl]
      exact cacheInv_set hinv (fun hidx => setinv_read_miss (hinv _ hidx) hl)
  · by_cases hw : t = 'W' ∨ t = 'w'
    · cases hl : lookup (cache.getD (addr_index config a) []) (addr_tag config a) with
      | some w =>
        rw [access_cache_write_hit hw hl]
        exact cacheInv_set hinv (fun hidx =>
          setinv_touch (hinv _ hidx) (lookup_some hl).1 (lookup_some hl).2.1)
      | none =>
        rw [access_cache_write_miss hw hl]
        exact hinv
    · rw [access_cache_unknown hr hw]
      exact hinv

lemma cacheInv_processTrace {config : CacheConfig} (tr : List (Char × Nat)) :
    ∀ cache stats, CacheInvariant config.associativity cache →
      CacheInvariant config.associativity (processTrace config tr cache stats).1 := by
  induction tr with
  | nil => intro cache stats h; exact h
  | cons e rest ih =>
    intro cache stats h
    obtain ⟨t, a⟩ := e
    exact ih _ _ (cacheInv_access h)

/-! Claim C5: the LRU touch rule. -/

/-- C5: for every set state and way, `update_lru` decrements the recency
counter of exactly those valid lines whose recency is strictly greater than
the touched line's prior recency, by one each, then sets the touched line's
recency to `associativity - 1`; every other line is unchanged. -/
theorem claim_lru_touch_rule (s : List CacheLine) (assoc w : Nat) (hw : w < s.length) :
    (update_lru s assoc w).length = s.length ∧
    lineAt (update_lru s assoc w) w
      = { lineAt s w with lru_counter := assoc - 1 } ∧
    (∀ i, i < s.length → i ≠ w →
      lineAt (update_lru s assoc w) i
        = if (lineAt s i).valid = true ∧
             (lineAt s w).lru_counter < (lineAt s i).lru_counter
          then { lineAt s i with lru_counter := (lineAt s i).lru_counter - 1 }
          else lineAt s i) :=
  ⟨update_lru_length s assoc w, update_lru_lineAt_self hw,
   fun i hi hne => by rw [update_lru_lineAt_ne hi hne]; unfold touch_dec; rfl⟩

/-- Witness for C5 at a concrete two-way set. -/
theorem claim_lru_touch_rule_witness :
    (0 < ([{ valid := true, tag := 5, lru_counter := 0 },
           { valid := true, tag := 7, lru_counter := 1 }] : List CacheLine).length) ∧
    ((update_lru [{ valid := true, tag := 5, lru_counter := 0 },
                  { valid := true, tag := 7, lru_counter := 1 }] 2 0).length
        = ([{ valid := true, tag := 5, lru_counter := 0 },
            { valid := true, tag := 7, lru_counter := 1 }] : List CacheLine).length ∧
     lineAt (update_lru [{ valid := true, tag := 5, lru_counter := 0 },
                         { valid := true, tag := 7, lru_counter := 1 }] 2 0) 0
        = { lineAt [{ valid := true, tag := 5, lru_counter := 0 },
                    { valid := true, tag := 7, lru_counter := 1 }] 0 with
              lru_counter := 2 - 1 } ∧
     (∀ i, i < ([{ valid := true, tag := 5, lru_counter := 0 },
                 { valid := true, tag := 7, lru_counter := 1 }] : List CacheLine).length →
        i ≠ 0 →
        lineAt (update_lru [{ valid := true, tag := 5, lru_counter := 0 },
                            { valid := true, tag := 7, lru_counter := 1 }] 2 0) i
          = if (lineAt [{ valid := true, tag := 5, lru_counter := 0 },
                        { valid := true, tag := 7, lru_counter := 1 }] i).valid = true ∧
               (lineAt [{ valid := true, tag := 5, lru_counter := 0 },
                        { valid := true, tag := 7, lru_counter := 1 }] 0).lru_counter
                 < (lineAt [{ valid := true, tag := 5, lru_counter := 0 },
                            { valid := true, tag := 7, lru_counter := 1 }] i).lru_counter
            then { lineAt [{ valid := true, tag := 5, lru_counter := 0 },
                           { valid := true, tag := 7, lru_counter := 1 }] i with
                     lru_counter :=
                       (lineAt [{ valid := true, tag := 5, lru_counter := 0 },
                                { valid := true, tag := 7, lru_counter := 1 }] i).lru_counter
                         - 1 }
            else lineAt [{ valid := true, tag := 5, lru_counter := 0 },
                         { valid := true, tag := 7, lru_counter := 1 }] i)) :=
  ⟨by decide,
   claim_lru_touch_rule
     [{ valid := true, tag := 5, lru_counter := 0 },
      { valid := true, tag := 7, lru_counter := 1 }] 2 0 (by decide)⟩

/-! Claim C6: victim selection. -/

/-- C6: victim selection returns the lowest-index invalid way when one
exists; otherwise the lowest-index way holding the minimum recency counter
(strict less-than scan, earliest minimum kept). -/
theorem claim_victim_selection (s : List CacheLine) (h0 : 0 < s.length) :
    find_lru_victim s < s.length ∧
    ((∃ i, i < s.length ∧ (lineAt s i).valid = false) →
      ((lineAt s (find_lru_victim s)).valid = false ∧
       ∀ i, i < find_lru_victim s → (lineAt s i).valid = true)) ∧
    ((∀ i, i < s.length → (lineAt s i).valid = true) →
      ((∀ i, i < s.length →
          (lineAt s (find_lru_victim s)).lru_counter ≤ (lineAt s i).lru_counter) ∧
       (∀ i, i < find_lru_victim s →
          (lineAt s (find_lru_victim s)).lru_counter < (lineAt s i).lru_counter))) := by
  refine ⟨find_lru_victim_lt h0, ?_, ?_⟩
  · rintro ⟨i, hi, hiv⟩
    cases hfi : first_invalid s with
    | none => exact absurd (first_invalid_none hfi i hi) (by simp [hiv])
    | some j =>
      rw [find_lru_victim_invalid hfi]
      exact ⟨(first_invalid_some hfi).2.1, (first_invalid_some hfi).2.2⟩
  · intro hfull
    exact ⟨(find_lru_victim_full hfull h0).2.1, (find_lru_victim_full hfull h0).2.2⟩

/-- Witness for C6 at a concrete two-way set with an invalid way. -/
theorem claim_victim_selection_witness :
    (0 < ([{ valid := true, tag := 3, lru_counter := 1 },
           { valid := false, tag := 0, lru_counter := 0 }] : List CacheLine).length) ∧
    (find_lru_victim [{ valid := true, tag := 3, lru_counter := 1 },
                      { valid := false, tag := 0, lru_counter := 0 }]
       < ([{ valid := true, tag := 3, lru_counter := 1 },
           { valid := false, tag := 0, lru_counter := 0 }] : List CacheLine).length ∧
     ((∃ i, i < ([{ valid := true, tag := 3, lru_counter := 1 },
                  { valid := false, tag := 0, lru_counter := 0 }] : List CacheLine).length ∧
          (lineAt [{ valid := true, tag := 3, lru_counter := 1 },
                   { valid := false, tag := 0, lru_counter := 0 }] i).valid = false) →
       ((lineAt [{ valid := true, tag := 3, lru_counter := 1 },
                 { valid := false, tag := 0, lru_counter := 0 }]
           (find_lru_victim [{ valid := true, tag := 3, lru_counter := 1 },
                             { valid := false, tag := 0, lru_counter := 0 }])).valid = false ∧
        ∀ i, i < find_lru_victim [{ valid := true, tag := 3, lru_counter := 1 },
                                  { valid := false, tag := 0, lru_counter := 0 }] →
          (lineAt [{ valid := true, tag := 3, lru_counter := 1 },
                   { valid := false, tag := 0, lru_counter := 0 }] i).valid = true)) ∧
     ((∀ i, i < ([{ valid := true, tag := 3, lru_counter := 1 },
                  { valid := false, tag := 0, lru_counter := 0 }] : List CacheLine).length →
          (lineAt [{ valid := true, tag := 3, lru_counter := 1 },
                   { valid := false, tag := 0, lru_counter := 0 }] i).valid = true) →
       ((∀ i, i < ([{ valid := true, tag := 3, lru_counter := 1 },
                    { valid := false, tag := 0, lru_counter := 0 }] : List CacheLine).length →
           (lineAt [{ valid := true, tag := 3, lru_counter := 1 },
                    { valid := false, tag := 0, lru_counter := 0 }]
              (find_lru_victim [{ valid := true, tag := 3, lru_counter := 1 },
                                { valid := false, tag := 0, lru_counter := 0 }])).lru_counter
             ≤ (lineAt [{ valid := true, tag := 3, lru_counter := 1 },
                        { valid := false, tag := 0, lru_counter := 0 }] i).lru_counter) ∧
        (∀ i, i < find_lru_victim [{ valid := true, tag := 3, lru_counter := 1 },
                                   { valid := false, tag := 0, lru_counter := 0 }] →
           (lineAt [{ valid := true, tag := 3, lru_counter := 1 },
                    { valid := false, tag := 0, lru_counter := 0 }]
              (find_lru_victim [{ valid := true, tag := 3, lru_counter := 1 },
                                { valid := false, tag := 0, lru_counter := 0 }])).lru_counter
             < (lineAt [{ valid := true, tag := 3, lru_counter := 1 },
                        { valid := false, tag := 0, lru_counter := 0 }] i).lru_counter)))) :=
  ⟨by decide,
   claim_victim_selection
     [{ valid := true, tag := 3, lru_counter := 1 },
      { valid := false, tag := 0, lru_counter := 0 }] (by decide)⟩

/-! Claim C2: the concrete three-read scenario. -/

/-- C2 counterexample: with num_sets=4, associativity=2, line_size=16, the
reads to 0x00, 0x10, 0x20 do NOT all decompose to index 0 — the code derives
indices 0, 1 and 2, refuting the claimed scenario. -/
theorem claim_scenario_counterexample :
    ((processTrace (mkConfig 4 2 16) [('R', 0x00), ('R', 0x10), ('R', 0x20)]
        (init_cache (mkConfig 4 2 16)) zeroStats).2.2.map (fun o => o.index))
      ≠ [0, 0, 0] := by decide

/-- C2 amended: with num_sets=4, associativity=2, line_size=16 (so
offset_bits=4, index_bits=2), reads to 0x00, 0x10, 0x20 decompose to indices
0, 1, 2 (each with tag 0 and offset 0), give outcomes miss, miss, miss with
one memory read each and no eviction, and leave sets 0, 1 and 2 each holding
tag 0 in way 0 with set 3 untouched. -/
theorem claim_scenario_amended :
    processTrace (mkConfig 4 2 16) [('R', 0x00), ('R', 0x10), ('R', 0x20)]
        (init_cache (mkConfig 4 2 16)) zeroStats
      = ([[{ valid := true, tag := 0, lru_counter := 1 },
           { valid := false, tag := 0, lru_counter := 0 }],
          [{ valid := true, tag := 0, lru_counter := 1 },
           { valid := false, tag := 0, lru_counter := 0 }],
          [{ valid := true, tag := 0, lru_counter := 1 },
           { valid := false, tag := 0, lru_counter := 0 }],
          [{ valid := false, tag := 0, lru_counter := 0 },
           { valid := false, tag := 0, lru_counter := 0 }]],
         { hits := 0, misses := 3, mem_reads := 3, mem_writes := 0 },
         [{ access_type := 'R', address := 0, tag := 0, index := 0, offset := 0,
            hit := false, mem_refs := 1 },
          { access_type := 'R', address := 16, tag := 0, index := 1, offset := 0,
            hit := false, mem_refs := 1 },
          { access_type := 'R', address := 32, tag := 0, index := 2, offset := 0,
            hit := false, mem_refs := 1 }]) := by decide

/-! Claim C3: memory-reference counts of the printed record. -/

/-- C3: every printed record reports 0 memory references for a read hit,
1 for a read miss, and always 1 for a write, hit or miss. -/
theorem claim_mem_ref_counts (cache : List (List CacheLine)) (config : CacheConfig)
    (t : Char) (a : Nat) (stats : CacheStats) (o : Outcome)
    (ho : (access_cache cache config t a stats).2.2 = some o) :
    ((t = 'R' ∨ t = 'r') → o.mem_refs = if o.hit then 0 else 1) ∧
    ((t = 'W' ∨ t = 'w') → o.mem_refs = 1) := by
  by_cases hr : t = 'R' ∨ t = 'r'
  · have hnw : ¬(t = 'W' ∨ t = 'w') := by
      rcases hr with h | h <;> subst h <;> decide
    cases hl : lookup (cache.getD (addr_index config a) []) (addr_tag config a) with
    | some w =>
      rw [access_cache_read_hit hr hl] at ho
      simp only [Option.some.injEq] at ho
      subst ho
      exact ⟨fun _ => rfl, fun h => absurd h hnw⟩
    | none =>
      rw [access_cache_read_miss hr hl] at ho
      simp only [Option.some.injEq] at ho
      subst ho
      exact ⟨fun _ => rfl, fun h => absurd h hnw⟩
  · by_cases hw : t = 'W' ∨ t = 'w'
    · cases hl : lookup (cache.getD (addr_index config a) []) (addr_tag config a) with
      | some w =>
        rw [access_cache_write_hit hw hl] at ho
        simp only [Option.some.injEq] at ho
        subst ho
        exact ⟨fun h => absurd h hr, fun _ => rfl⟩
      | none =>
        rw [access_cache_write_miss hw hl] at ho
        simp only [Option.some.injEq] at ho
        subst ho
        exact ⟨fun h => absurd h hr, fun _ => rfl⟩
    · rw [access_cache_unknown hr hw] at ho
      exact absurd ho (by simp)

/-- Witness for C3: a read miss on the empty initial cache. -/
theorem claim_mem_ref_counts_witness :
    ((access_cache (init_cache (mkConfig 4 2 16)) (mkConfig 4 2 16) 'R' 0 zeroStats).2.2
       = some { access_type := 'R', address := 0, tag := 0, index := 0, offset := 0,
                hit := false, mem_refs := 1 }) ∧
    ((('R' : Char) = 'R' ∨ ('R' : Char) = 'r') →
       ({ access_type := 'R', address := 0, tag := 0, index := 0, offset := 0,
          hit := false, mem_refs := 1 } : Outcome).mem_refs
         = if ({ access_type := 'R', address := 0, tag := 0, index := 0, offset := 0,
                 hit := false, mem_refs := 1 } : Outcome).hit then 0 else 1) ∧
    ((('R' : Char) = 'W' ∨ ('R' : Char) = 'w') →
       ({ access_type := 'R', address := 0, tag := 0, index := 0, offset := 0,
          hit := false, mem_refs := 1 } : Outcome).mem_refs = 1) :=
  ⟨by decide,
   claim_mem_ref_counts (init_cache (mkConfig 4 2 16)) (mkConfig 4 2 16) 'R' 0 zeroStats
     { access_type := 'R', address := 0, tag := 0, index := 0, offset := 0,
       hit := false, mem_refs := 1 } (by decide)⟩

/-! Claim C4: the no-write-allocate frame property. -/

/-- C4: a write access that misses increments only `misses` and `mem_writes`
and leaves the entire cache state — every line's valid flag, tag and recency
counter in every set — exactly as it was; `hits` and `mem_reads` do not move. -/
theorem claim_write_miss_frame (cache : List (List CacheLine)) (config : CacheConfig)
    (t : Char) (a : Nat) (stats : CacheStats)
    (ht : t = 'W' ∨ t = 'w')
    (hmiss : lookup (cache.getD (addr_index config a) []) (addr_tag config a) = none) :
    (access_cache cache config t a stats).1 = cache ∧
    (access_cache cache config t a stats).2.1
      = { hits := stats.hits, misses := stats.misses + 1,
          mem_reads := stats.mem_reads, mem_writes := stats.mem_writes + 1 } := by
  rw [access_cache_write_miss ht hmiss]
  exact ⟨rfl, rfl⟩

/-- Witness for C4: a write miss on the empty initial cache. -/
theorem claim_write_miss_frame_witness :
    ((('W' : Char) = 'W' ∨ ('W' : Char) = 'w') ∧
     lookup ((init_cache (mkConfig 4 2 16)).getD (addr_index (mkConfig 4 2 16) 0) [])
       (addr_tag (mkConfig 4 2 16) 0) = none) ∧
    ((access_cache (init_cache (mkConfig 4 2 16)) (mkConfig 4 2 16) 'W' 0 zeroStats).1
        = init_cache (mkConfig 4 2 16) ∧
     (access_cache (init_cache (mkConfig 4 2 16)) (mkConfig 4 2 16) 'W' 0 zeroStats).2.1
        = { hits := zeroStats.hits, misses := zeroStats.misses + 1,
            mem_reads := zeroStats.mem_reads, mem_writes := zeroStats.mem_writes + 1 }) :=
  ⟨⟨by decide, by decide⟩,
   claim_write_miss_frame (init_cache (mkConfig 4 2 16)) (mkConfig 4 2 16) 'W' 0 zeroStats
     (by decide) (by decide)⟩

/-! Claim C10: unknown access kinds are silent no-ops. -/

/-- C10: an access whose kind character is none of R, r, W, w leaves every
cache line and all four statistics counters unchanged and produces no
printed record. -/
theorem claim_unknown_kind_noop (cache : List (List CacheLine)) (config : CacheConfig)
    (t : Char) (a : Nat) (stats : CacheStats)
    (ht : t ≠ 'R' ∧ t ≠ 'r' ∧ t ≠ 'W' ∧ t ≠ 'w') :
    access_cache cache config t a stats = (cache, stats, none) :=
  access_cache_unknown (by rintro (h | h) <;> [exact ht.1 h; exact ht.2.1 h])
    (by rintro (h | h) <;> [exact ht.2.2.1 h; exact ht.2.2.2 h])

/-- Witness for C10: a size-marker character is ignored. -/
theorem claim_unknown_kind_noop_witness :
    (('X' : Char) ≠ 'R' ∧ ('X' : Char) ≠ 'r' ∧ ('X' : Char) ≠ 'W' ∧ ('X' : Char) ≠ 'w') ∧
    access_cache (init_cache (mkConfig 4 2 16)) (mkConfig 4 2 16) 'X' 0 zeroStats
      = (init_cache (mkConfig 4 2 16), zeroStats, none) :=
  ⟨by decide,
   claim_unknown_kind_noop (init_cache (mkConfig 4 2 16)) (mkConfig 4 2 16) 'X' 0 zeroStats
     (by decide)⟩

/-! Claim C7: the reachable set-state invariant. -/

/-- C7: in every state reachable from the all-invalid initial cache by
processing accesses, every set's valid lines have recency counters inside
[0, associativity-1], pairwise distinct tags, and pairwise distinct
recency counters. -/
theorem claim_set_state_invariant (config : CacheConfig) (tr : List (Char × Nat)) (k : Nat)
    (hk : k < (processTrace config tr (init_cache config) zeroStats).1.length) :
    (∀ i, i < ((processTrace config tr (init_cache config) zeroStats).1.getD k []).length →
       (lineAt ((processTrace config tr (init_cache config) zeroStats).1.getD k [])
          i).valid = true →
       (lineAt ((processTrace config tr (init_cache config) zeroStats).1.getD k [])
          i).lru_counter < config.associativity) ∧
    (∀ i j, i < ((processTrace config tr (init_cache config) zeroStats).1.getD k []).length →
       j < ((processTrace config tr (init_cache config) zeroStats).1.getD k []).length →
       i ≠ j →
       (lineAt ((processTrace config tr (init_cache config) zeroStats).1.getD k [])
          i).valid = true →
       (lineAt ((processTrace config tr (init_cache config) zeroStats).1.getD k [])
          j).valid = true →
       (lineAt ((processTrace config tr (init_cache config) zeroStats).1.getD k [])
           i).tag
         ≠ (lineAt ((processTrace config tr (init_cache config) zeroStats).1.getD k [])
           j).tag ∧
       (lineAt ((processTrace config tr (init_cache config) zeroStats).1.getD k [])
           i).lru_counter
         ≠ (lineAt ((processTrace config tr (init_cache config) zeroStats).1.getD k [])
           j).lru_counter) := by
  have h := cacheInv_processTrace tr (init_cache config) zeroStats (cacheInv_init config) k hk
  exact ⟨fun i hi hv => (h.2.2.1 i hi hv).2, h.2.2.2⟩

/-- Witness for C7: the state after two reads and a write on a 4x2 cache. -/
theorem claim_set_state_invariant_witness :
    (0 < (processTrace (mkConfig 4 2 16) [('R', 0x00), ('R', 0x40), ('W', 0x80)]
            (init_cache (mkConfig 4 2 16)) zeroStats).1.length) ∧
    ((∀ i, i < ((processTrace (mkConfig 4 2 16) [('R', 0x00), ('R', 0x40), ('W', 0x80)]
            (init_cache (mkConfig 4 2 16)) zeroStats).1.getD 0 []).length →
       (lineAt ((processTrace (mkConfig 4 2 16) [('R', 0x00), ('R', 0x40), ('W', 0x80)]
            (init_cache (mkConfig 4 2 16)) zeroStats).1.getD 0 []) i).valid = true →
       (lineAt ((processTrace (mkConfig 4 2 16) [('R', 0x00), ('R', 0x40), ('W', 0x80)]
            (init_cache (mkConfig 4 2 16)) zeroStats).1.getD 0 []) i).lru_counter
         < (mkConfig 4 2 16).associativity) ∧
     (∀ i j, i < ((processTrace (mkConfig 4 2 16) [('R', 0x00), ('R', 0x40), ('W', 0x80)]
            (init_cache (mkConfig 4 2 16)) zeroStats).1.getD 0 []).length →
       j < ((processTrace (mkConfig 4 2 16) [('R', 0x00), ('R', 0x40), ('W', 0x80)]
            (init_cache (mkConfig 4 2 16)) zeroStats).1.getD 0 []).length →
       i ≠ j →
       (lineAt ((processTrace (mkConfig 4 2 16) [('R', 0x00), ('R', 0x40), ('W', 0x80)]
            (init_cache (mkConfig 4 2 16)) zeroStats).1.getD 0 []) i).valid = true →
       (lineAt ((processTrace (mkConfig 4 2 16) [('R', 0x00), ('R', 0x40), ('W', 0x80)]
            (init_cache (mkConfig 4 2 16)) zeroStats).1.getD 0 []) j).valid = true →
       (lineAt ((processTrace (mkConfig 4 2 16) [('R', 0x00), ('R', 0x40), ('W', 0x80)]
            (init_cache (mkConfig 4 2 16)) zeroStats).1.getD 0 []) i).tag
         ≠ (lineAt ((processTrace (mkConfig 4 2 16) [('R', 0x00), ('R', 0x40), ('W', 0x80)]
            (init_cache (mkConfig 4 2 16)) zeroStats).1.getD 0 []) j).tag ∧
       (lineAt ((processTrace (mkConfig 4 2 16) [('R', 0x00), ('R', 0x40), ('W', 0x80)]
            (init_cache (mkConfig 4 2 16)) zeroStats).1.getD 0 []) i).lru_counter
         ≠ (lineAt ((processTrace (mkConfig 4 2 16) [('R', 0x00), ('R', 0x40), ('W', 0x80)]
            (init_cache (mkConfig 4 2 16)) zeroStats).1.getD 0 []) j).lru_counter)) :=
  ⟨by decide,
   claim_set_state_invariant (mkConfig 4 2 16) [('R', 0x00), ('R', 0x40), ('W', 0x80)] 0
     (by decide)⟩

/-! Claim C8: geometry validation. -/

lemma pow2_land_pred (k : Nat) : 2 ^ k &&& (2 ^ k - 1) = 0 := by
  apply Nat.eq_of_testBit_eq
  intro i
  rw [Nat.testBit_land, Nat.zero_testBit, Nat.testBit_two_pow_sub_one]
  by_cases h : i = k
  · subst h
    simp
  · rw [Nat.testBit_two_pow_of_ne (fun hh => h hh.symm)]
    simp

lemma land_pred_eq_zero_pow2 : ∀ m : Nat, 0 < m → m &&& (m - 1) = 0 → ∃ k, m = 2 ^ k := by
  intro m
  induction m using Nat.strong_induction_on with
  | _ m ih =>
    intro hpos hand
    rcases Nat.lt_or_ge m 2 with h2 | h2
    · have hm1 : m = 1 := by omega
      exact ⟨0, by simpa using hm1⟩
    · rcases Nat.even_or_odd m with ⟨t, ht⟩ | ⟨t, ht⟩
      · have ht' : m = 2 * t := by omega
        have htpos : 0 < t := by omega
        have hti : t &&& (t - 1) = 0 := by
          apply Nat.eq_of_testBit_eq
          intro i
          have h1 : t.testBit i = m.testBit (i + 1) := by
            rw [Nat.testBit_succ]
            congr 1
            omega
          have h1' : (t - 1).testBit i = (m - 1).testBit (i + 1) := by
            rw [Nat.testBit_succ]
            congr 1
            omega
          have hz := congrArg (fun x => x.testBit (i + 1)) hand
          simp only [Nat.testBit_land, Nat.zero_testBit] at hz
          rw [Nat.testBit_land, Nat.zero_testBit, h1, h1', hz]
        obtain ⟨k, hk⟩ := ih t (by omega) htpos hti
        refine ⟨k + 1, ?_⟩
        rw [ht', hk, Nat.pow_succ]
        ring
      · have htpos : 0 < t := by omega
        obtain ⟨i, hbit⟩ := Nat.ne_zero_implies_bit_true (x := t) (by omega)
        have hm : m.testBit (i + 1) = true := by
          rw [Nat.testBit_succ]
          have hdiv : m / 2 = t := by omega
          rw [hdiv]
          exact hbit
        have hm1 : (m - 1).testBit (i + 1) = true := by
          rw [Nat.testBit_succ]
          have hdiv : (m - 1) / 2 = t := by omega
          rw [hdiv]
          exact hbit
        have hz := congrArg (fun x => x.testBit (i + 1)) hand
        simp only [Nat.testBit_land, Nat.zero_testBit, hm, hm1] at hz
        exact absurd hz (by simp)

lemma int_pow2_iff {n : Int} (hpos : 0 < n) :
    (n.toNat &&& (n.toNat - 1) = 0) ↔ (∃ k : Nat, n = 2 ^ k) := by
  constructor
  · intro h
    obtain ⟨k, hk⟩ := land_pred_eq_zero_pow2 n.toNat (by omega) h
    refine ⟨k, ?_⟩
    have hn : ((n.toNat : Nat) : Int) = n := Int.toNat_of_nonneg (by omega)
    rw [← hn, hk]
    push_cast
    rfl
  · rintro ⟨k, hk⟩
    have h2 : ((2 ^ k : Nat) : Int) = (2 : Int) ^ k := by push_cast; rfl
    have hkn : n.toNat = 2 ^ k := by
      rw [hk, ← h2, Int.toNat_natCast]
    rw [hkn]
    exact pow2_land_pred k

lemma validate_config_iff (n a l : Int) :
    validate_config n a l = true ↔
      (0 < n ∧ n ≤ 8192 ∧ 0 < a ∧ a ≤ 8 ∧ 8 ≤ l ∧ l ≤ 64 ∧
       n.toNat &&& (n.toNat - 1) = 0 ∧ l.toNat &&& (l.toNat - 1) = 0) := by
  unfold validate_config
  split_ifs with h1 h2 h3 h4 h5
  · simp only [Bool.false_eq_true, false_iff]
    rintro ⟨c1, c2, -⟩
    omega
  · simp only [Bool.false_eq_true, false_iff]
    rintro ⟨-, -, c3, c4, -⟩
    omega
  · simp only [Bool.false_eq_true, false_iff]
    rintro ⟨-, -, -, -, c5, c6, -⟩
    omega
  · simp only [Bool.false_eq_true, false_iff]
    rintro ⟨-, -, -, -, -, -, c7, -⟩
    exact h4 c7
  · simp only [Bool.false_eq_true, false_iff]
    rintro ⟨-, -, -, -, -, -, -, c8⟩
    exact h5 c8
  · simp only [true_iff]
    push_neg at h1 h2 h3
    refine ⟨by omega, by omega, by omega, by omega, by omega, by omega, ?_, ?_⟩
    · exact not_not.mp h4
    · exact not_not.mp h5

/-- C8: `validate_config` accepts exactly the configurations with `num_sets`
in [1, 8192] and a power of two, `associativity` in [1, 8] (no power-of-two
requirement), and `line_size` in [8, 64] and a power of two. -/
theorem claim_geometry_validation (n a l : Int) :
    validate_config n a l = true ↔ ConfigAccepted n a l := by
  rw [validate_config_iff]
  unfold ConfigAccepted
  constructor
  · rintro ⟨h1, h2, h3, h4, h5, h6, h7, h8⟩
    exact ⟨⟨by omega, by omega, (int_pow2_iff (by omega)).mp h7⟩,
           ⟨by omega, by omega⟩,
           ⟨by omega, by omega, (int_pow2_iff (by omega)).mp h8⟩⟩
  · rintro ⟨⟨h1, h2, h3⟩, ⟨h4, h5⟩, ⟨h6, h7, h8⟩⟩
    refine ⟨by omega, by omega, by omega, by omega, by omega, by omega, ?_, ?_⟩
    · exact (int_pow2_iff (by omega)).mpr h3
    · exact (int_pow2_iff (by omega)).mpr h8

/-! Claim C9: statistics accounting and monotonicity. -/

lemma step_stats (cache : List (List CacheLine)) (config : CacheConfig)
    (t : Char) (a : Nat) (stats : CacheStats) :
    (access_cache cache config t a stats).2.1.hits
        = stats.hits
          + (access_cache cache config t a stats).2.2.toList.countP (fun o => o.hit) ∧
    (access_cache cache config t a stats).2.1.misses
        = stats.misses
          + (access_cache cache config t a stats).2.2.toList.countP (fun o => !o.hit) ∧
    (access_cache cache config t a stats).2.1.mem_reads
        = stats.mem_reads
          + (access_cache cache config t a stats).2.2.toList.countP
              (fun o => (o.access_type == 'R' || o.access_type == 'r') && !o.hit) ∧
    (access_cache cache config t a stats).2.1.mem_writes
        = stats.mem_writes
          + (access_cache cache config t a stats).2.2.toList.countP
              (fun o => o.access_type == 'W' || o.access_type == 'w') ∧
    ((t = 'R' ∨ t = 'r' ∨ t = 'W' ∨ t = 'w') →
        (access_cache cache config t a stats).2.2.toList.length = 1 ∧
        (access_cache cache config t a stats).2.1.hits
            + (access_cache cache config t a stats).2.1.misses
          = stats.hits + stats.misses + 1) := by
  by_cases hr : t = 'R' ∨ t = 'r'
  · cases hl : lookup (cache.getD (addr_index config a) []) (addr_tag config a) with
    | some w =>
      rw [access_cache_read_hit hr hl]
      rcases hr with rfl | rfl <;>
        exact ⟨by simp, by simp, by simp, by simp, fun _ => ⟨by simp, by simp <;> omega⟩⟩
    | none =>
      rw [access_cache_read_miss hr hl]
      rcases hr with rfl | rfl <;>
        exact ⟨by simp, by simp, by simp, by simp, fun _ => ⟨by simp, by simp <;> omega⟩⟩
  · by_cases hw : t = 'W' ∨ t = 'w'
    · cases hl : lookup (cache.getD (addr_index config a) []) (addr_tag config a) with
      | some w =>
        rw [access_cache_write_hit hw hl]
        rcases hw with rfl | rfl <;>
          exact ⟨by simp, by simp, by simp, by simp, fun _ => ⟨by simp, by simp <;> omega⟩⟩
      | none =>
        rw [access_cache_write_miss hw hl]
        rcases hw with rfl | rfl <;>
          exact ⟨by simp, by simp, by simp, by simp, fun _ => ⟨by simp, by simp <;> omega⟩⟩
    · rw [access_cache_unknown hr hw]
      refine ⟨by simp, by simp, by simp, by simp, ?_⟩
      rintro (h | h | h | h)
      · exact absurd (Or.inl h) hr
      · exact absurd (Or.inr h) hr
      · exact absurd (Or.inl h) hw
      · exact absurd (Or.inr h) hw

lemma processTrace_stats (config : CacheConfig) (tr : List (Char × Nat)) :
    ∀ (cache : List (List CacheLine)) (stats : CacheStats),
    (processTrace config tr cache stats).2.1.hits
        = stats.hits + (processTrace config tr cache stats).2.2.countP (fun o => o.hit) ∧
    (processTrace config tr cache stats).2.1.misses
        = stats.misses + (processTrace config tr cache stats).2.2.countP (fun o => !o.hit) ∧
    (processTrace config tr cache stats).2.1.mem_reads
        = stats.mem_reads + (processTrace config tr cache stats).2.2.countP
            (fun o => (o.access_type == 'R' || o.access_type == 'r') && !o.hit) ∧
    (processTrace config tr cache stats).2.1.mem_writes
        = stats.mem_writes + (processTrace config tr cache stats).2.2.countP
            (fun o => o.access_type == 'W' || o.access_type == 'w') ∧
    ((∀ e ∈ tr, e.1 = 'R' ∨ e.1 = 'r' ∨ e.1 = 'W' ∨ e.1 = 'w') →
        (processTrace config tr cache stats).2.2.length = tr.length ∧
        (processTrace config tr cache stats).2.1.hits
            + (processTrace config tr cache stats).2.1.misses
          = stats.hits + stats.misses + tr.length) := by
  induction tr with
  | nil =>
    intro cache stats
    exact ⟨by simp [processTrace], by simp [processTrace], by simp [processTrace],
      by simp [processTrace], fun _ => ⟨by simp [processTrace], by simp [processTrace]⟩⟩
  | cons e rest ih =>
    intro cache stats
    obtain ⟨t, a⟩ := e
    obtain ⟨s1, s2, s3, s4, s5⟩ := step_stats cache config t a stats
    obtain ⟨r1, r2, r3, r4, r5⟩ :=
      ih (access_cache cache config t a stats).1 (access_cache cache config t a stats).2.1
    simp only [processTrace, List.countP_append, List.length_append, List.length_cons]
    refine ⟨by omega, by omega, by omega, by omega, ?_⟩
    intro hkinds
    have hhead : t = 'R' ∨ t = 'r' ∨ t = 'W' ∨ t = 'w' := by
      have := hkinds (t, a) (by simp)
      simpa using this
    obtain ⟨s5a, s5b⟩ := s5 hhead
    obtain ⟨r5a, r5b⟩ := r5 (fun e he => hkinds e (List.mem_cons_of_mem _ he))
    exact ⟨by omega, by omega⟩

lemma stats_mono (cache : List (List CacheLine)) (config : CacheConfig)
    (t : Char) (a : Nat) (stats : CacheStats) :
    stats.hits ≤ (access_cache cache config t a stats).2.1.hits ∧
    stats.misses ≤ (access_cache cache config t a stats).2.1.misses ∧
    stats.mem_reads ≤ (access_cache cache config t a stats).2.1.mem_reads ∧
    stats.mem_writes ≤ (access_cache cache config t a stats).2.1.mem_writes := by
  by_cases hr : t = 'R' ∨ t = 'r'
  · cases hl : lookup (cache.getD (addr_index config a) []) (addr_tag config a) with
    | some w =>
      rw [access_cache_read_hit hr hl]
      exact ⟨Nat.le_succ _, le_refl _, le_refl _, le_refl _⟩
    | none =>
      rw [access_cache_read_miss hr hl]
      exact ⟨le_refl _, Nat.le_succ _, Nat.le_succ _, le_refl _⟩
  · by_cases hw : t = 'W' ∨ t = 'w'
    · cases hl : lookup (cache.getD (addr_index config a) []) (addr_tag config a) with
      | some w =>
        rw [access_cache_write_hit hw hl]
        exact ⟨Nat.le_succ _, le_refl _, le_refl _, Nat.le_succ _⟩
      | none =>
        rw [access_cache_write_miss hw hl]
        exact ⟨le_refl _, Nat.le_succ _, le_refl _, Nat.le_succ _⟩
    · rw [access_cache_unknown hr hw]
      exact ⟨le_refl _, le_refl _, le_refl _, le_refl _⟩

/-- C9: counters only grow across process calls, and after processing N
read/write events from the initial state, hits + misses = N with each of the
four totals equal to the corresponding sum over the per-event records. -/
theorem claim_stats_roundtrip (config : CacheConfig) (tr : List (Char × Nat))
    (hkinds : ∀ e ∈ tr, e.1 = 'R' ∨ e.1 = 'r' ∨ e.1 = 'W' ∨ e.1 = 'w') :
    (processTrace config tr (init_cache config) zeroStats).2.1.hits
        + (processTrace config tr (init_cache config) zeroStats).2.1.misses
      = tr.length ∧
    (processTrace config tr (init_cache config) zeroStats).2.1.hits
      = (processTrace config tr (init_cache config) zeroStats).2.2.countP
          (fun o => o.hit) ∧
    (processTrace config tr (init_cache config) zeroStats).2.1.misses
      = (processTrace config tr (init_cache config) zeroStats).2.2.countP
          (fun o => !o.hit) ∧
    (processTrace config tr (init_cache config) zeroStats).2.1.mem_reads
      = (processTrace config tr (init_cache config) zeroStats).2.2.countP
          (fun o => (o.access_type == 'R' || o.access_type == 'r') && !o.hit) ∧
    (processTrace config tr (init_cache config) zeroStats).2.1.mem_writes
      = (processTrace config tr (init_cache config) zeroStats).2.2.countP
          (fun o => o.access_type == 'W' || o.access_type == 'w') ∧
    (∀ (cache : List (List CacheLine)) (t : Char) (a : Nat) (stats : CacheStats),
       stats.hits ≤ (access_cache cache config t a stats).2.1.hits ∧
       stats.misses ≤ (access_cache cache config t a stats).2.1.misses ∧
       stats.mem_reads ≤ (access_cache cache config t a stats).2.1.mem_reads ∧
       stats.mem_writes ≤ (access_cache cache config t a stats).2.1.mem_writes) := by
  obtain ⟨p1, p2, p3, p4, p5⟩ := processTrace_stats config tr (init_cache config) zeroStats
  obtain ⟨p5a, p5b⟩ := p5 hkinds
  refine ⟨?_, ?_, ?_, ?_, ?_, fun cache t a stats => stats_mono cache config t a stats⟩
  · simpa [zeroStats] using p5b
  · simpa [zeroStats] using p1
  · simpa [zeroStats] using p2
  · simpa [zeroStats] using p3
  · simpa [zeroStats] using p4

/-- Witness for C9 at the concrete write-hit scenario of the specification. -/
theorem claim_stats_roundtrip_witness :
    (∀ e ∈ ([('R', 0x00), ('W', 0x00), ('W', 0x40)] : List (Char × Nat)),
       e.1 = 'R' ∨ e.1 = 'r' ∨ e.1 = 'W' ∨ e.1 = 'w') ∧
    ((processTrace (mkConfig 4 2 16) [('R', 0x00), ('W', 0x00), ('W', 0x40)]
          (init_cache (mkConfig 4 2 16)) zeroStats).2.1.hits
        + (processTrace (mkConfig 4 2 16) [('R', 0x00), ('W', 0x00), ('W', 0x40)]
          (init_cache (mkConfig 4 2 16)) zeroStats).2.1.misses
      = ([('R', 0x00), ('W', 0x00), ('W', 0x40)] : List (Char × Nat)).length ∧
     (processTrace (mkConfig 4 2 16) [('R', 0x00), ('W', 0x00), ('W', 0x40)]
          (init_cache (mkConfig 4 2 16)) zeroStats).2.1.hits
      = (processTrace (mkConfig 4 2 16) [('R', 0x00), ('W', 0x00), ('W', 0x40)]
          (init_cache (mkConfig 4 2 16)) zeroStats).2.2.countP (fun o => o.hit) ∧
     (processTrace (mkConfig 4 2 16) [('R', 0x00), ('W', 0x00), ('W', 0x40)]
          (init_cache (mkConfig 4 2 16)) zeroStats).2.1.misses
      = (processTrace (mkConfig 4 2 16) [('R', 0x00), ('W', 0x00), ('W', 0x40)]
          (init_cache (mkConfig 4 2 16)) zeroStats).2.2.countP (fun o => !o.hit) ∧
     (processTrace (mkConfig 4 2 16) [('R', 0x00), ('W', 0x00), ('W', 0x40)]
          (init_cache (mkConfig 4 2 16)) zeroStats).2.1.mem_reads
      = (processTrace (mkConfig 4 2 16) [('R', 0x00), ('W', 0x00), ('W', 0x40)]
          (init_cache (mkConfig 4 2 16)) zeroStats).2.2.countP
          (fun o => (o.access_type == 'R' || o.access_type == 'r') && !o.hit) ∧
     (processTrace (mkConfig 4 2 16) [('R', 0x00), ('W', 0x00), ('W', 0x40)]
          (init_cache (mkConfig 4 2 16)) zeroStats).2.1.mem_writes
      = (processTrace (mkConfig 4 2 16) [('R', 0x00), ('W', 0x00), ('W', 0x40)]
          (init_cache (mkConfig 4 2 16)) zeroStats).2.2.countP
          (fun o => o.access_type == 'W' || o.access_type == 'w') ∧
     (∀ (cache : List (List CacheLine)) (t : Char) (a : Nat) (stats : CacheStats),
        stats.hits ≤ (access_cache cache (mkConfig 4 2 16) t a stats).2.1.hits ∧
        stats.misses ≤ (access_cache cache (mkConfig 4 2 16) t a stats).2.1.misses ∧
        stats.mem_reads ≤ (access_cache cache (mkConfig 4 2 16) t a stats).2.1.mem_reads ∧
        stats.mem_writes
          ≤ (access_cache cache (mkConfig 4 2 16) t a stats).2.1.mem_writes)) :=
  ⟨by decide,
   claim_stats_roundtrip (mkConfig 4 2 16) [('R', 0x00), ('W', 0x00), ('W', 0x40)]
     (by decide)⟩

/-! Claim C1: ghost last-touch machinery. -/

lemma ghostSetInv_mono {s : List CacheLine} {gs : List Nat} {time : Nat}
    (h : GhostSetInv s gs time) : GhostSetInv s gs (time + 1) :=
  ⟨h.1, fun i hi hv => Nat.lt_succ_of_lt (h.2.1 i hi hv), h.2.2⟩

lemma ghostSetInv_setline {s : List CacheLine} {gs : List Nat} {time v : Nat}
    {x : CacheLine} (hg : GhostSetInv s gs time) (hv : v < s.length)
    (hvv : (lineAt s v).valid = true) (hxv : x.valid = true)
    (hxc : x.lru_counter = (lineAt s v).lru_counter) :
    GhostSetInv (s.set v x) gs time := by
  obtain ⟨hglen, htime, hiff⟩ := hg
  have hslen : (s.set v x).length = s.length := List.length_set s v x
  refine ⟨by rw [hslen]; exact hglen, ?_, ?_⟩
  · intro i hi hv2
    rw [hslen] at hi
    by_cases hiv : i = v
    · rw [hiv]
      exact htime v hv hvv
    · rw [lineAt_set_ne (fun h => hiv h.symm)] at hv2
      exact htime i hi hv2
  · intro i j hi hj hvi hvj
    rw [hslen] at hi hj
    by_cases hivq : i = v
    · by_cases hjvq : j = v
      · rw [hivq, hjvq, lineAt_set_self hv, hxc]
        exact hiff v v hv hv hvv hvv
      · rw [lineAt_set_ne (fun h => hjvq h.symm)] at hvj
        rw [hivq, lineAt_set_self hv, lineAt_set_ne (fun h => hjvq h.symm), hxc]
        exact hiff v j hv hj hvv hvj
    · by_cases hjvq : j = v
      · rw [lineAt_set_ne (fun h => hivq h.symm)] at hvi
        rw [hjvq, lineAt_set_self hv, lineAt_set_ne (fun h => hivq h.symm), hxc]
        exact hiff i v hi hv hvi hvv
      · rw [lineAt_set_ne (fun h => hivq h.symm)] at hvi
        rw [lineAt_set_ne (fun h => hjvq h.symm)] at hvj
        rw [lineAt_set_ne (fun h => hivq h.symm), lineAt_set_ne (fun h => hjvq h.symm)]
        exact hiff i j hi hj hvi hvj

lemma ghostSetInv_touch {assoc : Nat} {s : List CacheLine} {gs : List Nat}
    {time w : Nat} (hinv : SetInvariant assoc s) (hg : GhostSetInv s gs time)
    (hw : w < s.length) (hwv : (lineAt s w).valid = true) :
    GhostSetInv (update_lru s assoc w) (gs.set w time) (time + 1) := by
  obtain ⟨hlen, hinvd, hbnd, hdist⟩ := hinv
  obtain ⟨hglen, htime, hiff⟩ := hg
  have hwg : w < gs.length := by omega
  have hulen : (update_lru s assoc w).length = s.length := update_lru_length s assoc w
  have hwb := hbnd w hw hwv
  have hassoc1 : 1 ≤ assoc := by omega
  refine ⟨by rw [List.length_set, hulen, hglen], ?_, ?_⟩
  · intro i hi hv2
    rw [hulen] at hi
    by_cases hiw : i = w
    · rw [hiw, getD_set_self hwg]
      omega
    · rw [getD_set_ne (fun h => hiw h.symm)]
      rw [update_lru_valid hi hw] at hv2
      exact Nat.lt_succ_of_lt (htime i hi hv2)
  · intro i j hi hj hvi hvj
    rw [hulen] at hi hj
    rw [update_lru_valid hi hw] at hvi
    rw [update_lru_valid hj hw] at hvj
    by_cases hiw : i = w
    · by_cases hjw : j = w
      · rw [hiw, hjw]
        omega
      · rw [hiw, update_lru_ctr_self hw, update_lru_ctr_ne_valid hj hjw hvj,
          getD_set_self hwg, getD_set_ne (fun h => hjw h.symm)]
        have hjb := hbnd j hj hvj
        have hjd := (hdist j w hj hw hjw hvj hwv).2
        have hjt := htime j hj hvj
        split_ifs with hcond
        · omega
        · omega
    · by_cases hjw : j = w
      · rw [hjw, update_lru_ctr_self hw, update_lru_ctr_ne_valid hi hiw hvi,
          getD_set_self hwg, getD_set_ne (fun h => hiw h.symm)]
        have hib := hbnd i hi hvi
        have hid := (hdist i w hi hw hiw hvi hwv).2
        have hit := htime i hi hvi
        split_ifs with hcond
        · omega
        · omega
      · rw [update_lru_ctr_ne_valid hi hiw hvi, update_lru_ctr_ne_valid hj hjw hvj,
          getD_set_ne (fun h => hiw h.symm), getD_set_ne (fun h => hjw h.symm)]
        have hgs := hiff i j hi hj hvi hvj
        rw [← hgs]
        have hib := hbnd i hi hvi
        have hjb := hbnd j hj hvj
        by_cases hij : i = j
        · rw [hij]
          split_ifs with hcond
          · omega
          · omega
        · have hijd := (hdist i j hi hj hij hvi hvj).2
          have hid := (hdist i w hi hw hiw hvi hwv).2
          have hjd := (hdist j w hj hw hjw hvj hwv).2
          split_ifs with h1 h2 h2
          · omega
          · omega
          · omega
          · omega

lemma ghostSetInv_fill {assoc : Nat} {s : List CacheLine} {gs : List Nat}
    {time v tag : Nat} (hinv : SetInvariant assoc s) (hg : GhostSetInv s gs time)
    (hv : v < s.length) (hvi : (lineAt s v).valid = false) :
    GhostSetInv
      (update_lru (s.set v { lineAt s v with valid := true, tag := tag }) assoc v)
      (gs.set v time) (time + 1) := by
  obtain ⟨hlen, hinvd, hbnd, hdist⟩ := hinv
  obtain ⟨hglen, htime, hiff⟩ := hg
  have hzero : (lineAt s v).lru_counter = 0 := hinvd v hv hvi
  set x : CacheLine := { lineAt s v with valid := true, tag := tag } with hxdef
  have hxv : x.valid = true := rfl
  have hxc : x.lru_counter = (lineAt s v).lru_counter := rfl
  set s1 := s.set v x with hs1def
  have hs1len : s1.length = s.length := List.length_set s v x
  have hv1 : v < s1.length := by rw [hs1len]; exact hv
  have hvg : v < gs.length := by omega
  have hAtV : lineAt s1 v = x := lineAt_set_self hv
  have hAtNe : ∀ i, i ≠ v → lineAt s1 i = lineAt s i :=
    fun i hi => lineAt_set_ne (fun h => hi h.symm)
  have hnv1 : numValid s1 = numValid s + 1 := by
    have h := numValid_set s v x hv
    rw [← hs1def] at h
    rw [hvi, hxv] at h
    simp at h
    omega
  have hkup : numValid s + 1 ≤ s.length := by
    have := numValid_le_length s1
    omega
  have hassoc1 : 1 ≤ assoc := by omega
  have hulen : (update_lru s1 assoc v).length = s.length := by
    rw [update_lru_length, hs1len]
  have hvalid_u : ∀ i, i < s.length →
      (lineAt (update_lru s1 assoc v) i).valid = (lineAt s1 i).valid :=
    fun i hi => update_lru_valid (by rw [hs1len]; exact hi) hv1
  have hctr_v : (lineAt (update_lru s1 assoc v) v).lru_counter = assoc - 1 :=
    update_lru_ctr_self hv1
  have hctr_valid : ∀ i, i < s.length → i ≠ v → (lineAt s i).valid = true →
      (lineAt (update_lru s1 assoc v) i).lru_counter
        = (lineAt s i).lru_counter - 1 := by
    intro i hi hne hvi2
    have hi1 : i < s1.length := by rw [hs1len]; exact hi
    rw [update_lru_ctr_ne_valid hi1 hne (by rw [hAtNe i hne]; exact hvi2)]
    rw [hAtV, hAtNe i hne, hxc, hzero]
    have hib := hbnd i hi hvi2
    rw [if_pos (by omega)]
  refine ⟨by rw [List.length_set, hulen, hglen], ?_, ?_⟩
  · intro i hi hv2
    rw [hulen] at hi
    by_cases hiv2 : i = v
    · rw [hiv2, getD_set_self hvg]
      omega
    · rw [getD_set_ne (fun h => hiv2 h.symm)]
      rw [hvalid_u i hi, hAtNe i hiv2] at hv2
      exact Nat.lt_succ_of_lt (htime i hi hv2)
  · intro i j hi hj hvi2 hvj2
    rw [hulen] at hi hj
    rw [hvalid_u i hi] at hvi2
    rw [hvalid_u j hj] at hvj2
    by_cases hiv2 : i = v
    · by_cases hjv2 : j = v
      · rw [hiv2, hjv2]
        omega
      · rw [hAtNe j hjv2] at hvj2
        rw [hiv2, hctr_v, hctr_valid j hj hjv2 hvj2,
          getD_set_self hvg, getD_set_ne (fun h => hjv2 h.symm)]
        have hjb := hbnd j hj hvj2
        have hjt := htime j hj hvj2
        omega
    · by_cases hjv2 : j = v
      · rw [hAtNe i hiv2] at hvi2
        rw [hjv2, hctr_v, hctr_valid i hi hiv2 hvi2,
          getD_set_self hvg, getD_set_ne (fun h => hiv2 h.symm)]
        have hib := hbnd i hi hvi2
        have hit := htime i hi hvi2
        omega
      · rw [hAtNe i hiv2] at hvi2
        rw [hAtNe j hjv2] at hvj2
        rw [hctr_valid i hi hiv2 hvi2, hctr_valid j hj hjv2 hvj2,
          getD_set_ne (fun h => hiv2 h.symm), getD_set_ne (fun h => hjv2 h.symm)]
        have hgs := hiff i j hi hj hvi2 hvj2
        rw [← hgs]
        have hib := hbnd i hi hvi2
        have hjb := hbnd j hj hvj2
        omega

lemma touched_way_read_hit {cache : List (List CacheLine)} {config : CacheConfig}
    {t : Char} {a : Nat} {w : Nat} (ht : t = 'R' ∨ t = 'r')
    (hl : lookup (cache.getD (addr_index config a) []) (addr_tag config a) = some w) :
    touched_way cache config t a = some (addr_index config a, w) := by
  simp only [touched_way]
  rw [if_pos ht, hl]

lemma touched_way_read_miss {cache : List (List CacheLine)} {config : CacheConfig}
    {t : Char} {a : Nat} (ht : t = 'R' ∨ t = 'r')
    (hl : lookup (cache.getD (addr_index config a) []) (addr_tag config a) = none) :
    touched_way cache config t a
      = some (addr_index config a,
          find_lru_victim (cache.getD (addr_index config a) [])) := by
  simp only [touched_way]
  rw [if_pos ht, hl]

lemma touched_way_write_hit {cache : List (List CacheLine)} {config : CacheConfig}
    {t : Char} {a : Nat} {w : Nat} (ht : t = 'W' ∨ t = 'w')
    (hl : lookup (cache.getD (addr_index config a) []) (addr_tag config a) = some w) :
    touched_way cache config t a = some (addr_index config a, w) := by
  have hnr : ¬(t = 'R' ∨ t = 'r') := by
    rcases ht with h | h <;> subst h <;> decide
  simp only [touched_way]
  rw [if_neg hnr, if_pos ht, hl]

lemma touched_way_write_miss {cache : List (List CacheLine)} {config : CacheConfig}
    {t : Char} {a : Nat} (ht : t = 'W' ∨ t = 'w')
    (hl : lookup (cache.getD (addr_index config a) []) (addr_tag config a) = none) :
    touched_way cache config t a = none := by
  have hnr : ¬(t = 'R' ∨ t = 'r') := by
    rcases ht with h | h <;> subst h <;> decide
  simp only [touched_way]
  rw [if_neg hnr, if_pos ht, hl]

lemma touched_way_unknown {cache : List (List CacheLine)} {config : CacheConfig}
    {t : Char} {a : Nat}
    (hnr : ¬(t = 'R' ∨ t = 'r')) (hnw : ¬(t = 'W' ∨ t = 'w')) :
    touched_way cache config t a = none := by
  simp only [touched_way]
  rw [if_neg hnr, if_neg hnw]

lemma runInv_update {assoc : Nat} {cache : List (List CacheLine)}
    {g : List (List Nat)} {time idx w : Nat} {s' : List CacheLine}
    (hinv : RunInv assoc cache g time)
    (h : idx < cache.length →
         SetInvariant assoc s' ∧
         GhostSetInv s' ((g.getD idx []).set w time) (time + 1)) :
    RunInv assoc (cache.set idx s') (ghost_touch g idx w time) (time + 1) := by
  obtain ⟨hglen, hsets⟩ := hinv
  rcases Nat.lt_or_ge idx cache.length with hidx | hidx
  · refine ⟨by simp only [ghost_touch, List.length_set]; exact hglen, ?_⟩
    intro k hk
    rw [List.length_set] at hk
    by_cases hkq : k = idx
    · subst hkq
      unfold ghost_touch
      rw [getD_set_self hk, getD_set_self (by omega)]
      exact h hk
    · unfold ghost_touch
      rw [getD_set_ne (fun hh => hkq hh.symm), getD_set_ne (fun hh => hkq hh.symm)]
      exact ⟨(hsets k hk).1, ghostSetInv_mono (hsets k hk).2⟩
  · rw [List.set_eq_of_length_le hidx]
    unfold ghost_touch
    rw [List.set_eq_of_length_le (by omega)]
    exact ⟨hglen, fun k hk => ⟨(hsets k hk).1, ghostSetInv_mono (hsets k hk).2⟩⟩

lemma runInv_unchanged {assoc : Nat} {cache : List (List CacheLine)}
    {g : List (List Nat)} {time : Nat} (hinv : RunInv assoc cache g time) :
    RunInv assoc cache g (time + 1) :=
  ⟨hinv.1, fun k hk => ⟨(hinv.2 k hk).1, ghostSetInv_mono (hinv.2 k hk).2⟩⟩

lemma runInv_step {config : CacheConfig} {cache : List (List CacheLine)}
    {g : List (List Nat)} {time : Nat} {t : Char} {a : Nat}
    (hinv : RunInv config.associativity cache g time) :
    RunInv config.associativity (access_cache cache config t a zeroStats).1
      (match touched_way cache config t a with
       | some (idx, w) => ghost_touch g idx w time
       | none => g)
      (time + 1) := by
  by_cases hr : t = 'R' ∨ t = 'r'
  · cases hl : lookup (cache.getD (addr_index config a) []) (addr_tag config a) with
    | some w =>
      rw [access_cache_read_hit hr hl, touched_way_read_hit hr hl]
      exact runInv_update hinv (fun hidx =>
        ⟨setinv_touch ((hinv.2 _ hidx).1) (lookup_some hl).1 (lookup_some hl).2.1,
         ghostSetInv_touch ((hinv.2 _ hidx).1) ((hinv.2 _ hidx).2)
           (lookup_some hl).1 (lookup_some hl).2.1⟩)
    | none =>
      rw [access_cache_read_miss hr hl, touched_way_read_miss hr hl]
      refine runInv_update hinv (fun hidx => ?_)
      have hset := (hinv.2 _ hidx).1
      have hg := (hinv.2 _ hidx).2
      refine ⟨setinv_read_miss hset hl, ?_⟩
      cases hfi : first_invalid (cache.getD (addr_index config a) []) with
      | some i =>
        rw [find_lru_victim_invalid hfi]
        obtain ⟨hlt, hinvv, _⟩ := first_invalid_some hfi
        exact ghostSetInv_fill hset hg hlt hinvv
      | none =>
        have hfull := first_invalid_none hfi
        rcases Nat.eq_zero_or_pos (cache.getD (addr_index config a) []).length with hz | hz
        · -- the set is empty (associativity zero): everything collapses to []
          have hnil : cache.getD (addr_index config a) [] = [] :=
            List.length_eq_zero.mp hz
          have hgnil : g.getD (addr_index config a) [] = [] := by
            have hh := hg.1
            rw [hnil] at hh
            exact List.length_eq_zero.mp (by simpa using hh)
          have hv0 : find_lru_victim (cache.getD (addr_index config a) []) = 0 := by
            rw [hnil]
            rfl
          rw [hv0, hnil, hgnil]
          refine ⟨rfl, ?_, ?_⟩
          · intro i hi hv2
            simp [update_lru] at hi
          · intro i j hi hj hvi hvj
            simp [update_lru] at hi
        · have hvlt := find_lru_victim_lt hz
          have hvv := hfull _ hvlt
          have hfresh : ∀ i, i < (cache.getD (addr_index config a) []).length →
              (lineAt (cache.getD (addr_index config a) []) i).valid = true →
              (lineAt (cache.getD (addr_index config a) []) i).tag
                ≠ addr_tag config a :=
            lookup_none hl
          have h1 := @setinv_setline config.associativity
            (cache.getD (addr_index config a) [])
            (find_lru_victim (cache.getD (addr_index config a) []))
            { lineAt (cache.getD (addr_index config a) [])
                (find_lru_victim (cache.getD (addr_index config a) [])) with
              valid := true, tag := addr_tag config a }
            hset hvlt hvv rfl rfl hfresh
          have h2 := @ghostSetInv_setline (cache.getD (addr_index config a) [])
            ((g.getD (addr_index config a) []))
            time (find_lru_victim (cache.getD (addr_index config a) []))
            { lineAt (cache.getD (addr_index config a) [])
                (find_lru_victim (cache.getD (addr_index config a) [])) with
              valid := true, tag := addr_tag config a }
            hg hvlt hvv rfl rfl
          have hvlt1 : find_lru_victim (cache.getD (addr_index config a) [])
              < ((cache.getD (addr_index config a) []).set
                  (find_lru_victim (cache.getD (addr_index config a) []))
                  { lineAt (cache.getD (addr_index config a) [])
                      (find_lru_victim (cache.getD (addr_index config a) [])) with
                    valid := true, tag := addr_tag config a }).length := by
            rw [List.length_set]
            exact hvlt
          have hvv1 : (lineAt ((cache.getD (addr_index config a) []).set
              (find_lru_victim (cache.getD (addr_index config a) []))
              { lineAt (cache.getD (addr_index config a) [])
                  (find_lru_victim (cache.getD (addr_index config a) [])) with
                valid := true, tag := addr_tag config a })
              (find_lru_victim (cache.getD (addr_index config a) []))).valid = true := by
            rw [lineAt_set_self hvlt]
          exact ghostSetInv_touch h1 h2 hvlt1 hvv1
  · by_cases hw : t = 'W' ∨ t = 'w'
    · cases hl : lookup (cache.getD (addr_index config a) []) (addr_tag config a) with
      | some w =>
        rw [access_cache_write_hit hw hl, touched_way_write_hit hw hl]
        exact runInv_update hinv (fun hidx =>
          ⟨setinv_touch ((hinv.2 _ hidx).1) (lookup_some hl).1 (lookup_some hl).2.1,
           ghostSetInv_touch ((hinv.2 _ hidx).1) ((hinv.2 _ hidx).2)
             (lookup_some hl).1 (lookup_some hl).2.1⟩)
      | none =>
        rw [access_cache_write_miss hw hl, touched_way_write_miss hw hl]
        exact runInv_unchanged hinv
    · rw [access_cache_unknown hr hw, touched_way_unknown hr hw]
      exact runInv_unchanged hinv

lemma runInv_init (config : CacheConfig) :
    RunInv config.associativity (init_cache config) (init_ghost config) 0 := by
  refine ⟨by simp [init_cache, init_ghost], ?_⟩
  intro k hk
  refine ⟨cacheInv_init config k hk, ?_⟩
  unfold init_cache at hk
  rw [List.length_replicate] at hk
  unfold init_cache init_ghost
  rw [getD_replicate hk, getD_replicate hk]
  refine ⟨by simp, ?_, ?_⟩
  · intro i hi hv
    rw [List.length_replicate] at hi
    rw [lineAt_replicate hi] at hv
    exact absurd hv (by decide)
  · intro i j hi hj hvi hvj
    rw [List.length_replicate] at hi
    rw [lineAt_replicate hi] at hvi
    exact absurd hvi (by decide)

lemma runInv_runGhost {config : CacheConfig} (tr : List (Char × Nat)) :
    ∀ cache g time, RunInv config.associativity cache g time →
      RunInv config.associativity (runGhost config tr cache g time).1
        (runGhost config tr cache g time).2.1
        (runGhost config tr cache g time).2.2 := by
  induction tr with
  | nil => intro cache g time h; exact h
  | cons e rest ih =>
    intro cache g time h
    obtain ⟨t, a⟩ := e
    exact ih _ _ _ (runInv_step h)

lemma runGhost_cache_length {config : CacheConfig} (tr : List (Char × Nat)) :
    ∀ cache g time, (runGhost config tr cache g time).1.length = cache.length := by
  induction tr with
  | nil => intro cache g time; rfl
  | cons e rest ih =>
    intro cache g time
    obtain ⟨t, a⟩ := e
    show (runGhost config rest (access_cache cache config t a zeroStats).1
      (match touched_way cache config t a with
       | some (idx, w) => ghost_touch g idx w time
       | none => g) (time + 1)).1.length = cache.length
    rw [ih]
    exact access_cache_length

/-- C1: run any trace from the initial state with the ghost last-touch table
alongside.  If a set is left fully valid and a read access arrives whose tag
is not resident in that set, the victim chosen is exactly the way whose most
recent touch (load or hit) is oldest among the set's ways — strictly older
than every other way's — and the access replaces exactly that way's tag,
leaving every other way's tag in place and valid. -/
theorem claim_true_lru_eviction (config : CacheConfig) (tr : List (Char × Nat)) (a : Nat)
    (hpos : 0 < config.associativity)
    (hidx : addr_index config a < config.num_sets)
    (hfull : ∀ i,
      i < ((runGhost config tr (init_cache config) (init_ghost config) 0).1.getD
            (addr_index config a) []).length →
      (lineAt ((runGhost config tr (init_cache config) (init_ghost config) 0).1.getD
            (addr_index config a) []) i).valid = true)
    (hmiss : lookup ((runGhost config tr (init_cache config) (init_ghost config) 0).1.getD
            (addr_index config a) []) (addr_tag config a) = none) :
    find_lru_victim ((runGhost config tr (init_cache config) (init_ghost config) 0).1.getD
        (addr_index config a) [])
      < ((runGhost config tr (init_cache config) (init_ghost config) 0).1.getD
        (addr_index config a) []).length ∧
    (∀ j, j < ((runGhost config tr (init_cache config) (init_ghost config) 0).1.getD
          (addr_index config a) []).length →
      j ≠ find_lru_victim ((runGhost config tr (init_cache config) (init_ghost config) 0).1.getD
          (addr_index config a) []) →
      ((runGhost config tr (init_cache config) (init_ghost config) 0).2.1.getD
          (addr_index config a) []).getD
          (find_lru_victim ((runGhost config tr (init_cache config) (init_ghost config) 0).1.getD
            (addr_index config a) [])) 0
        < ((runGhost config tr (init_cache config) (init_ghost config) 0).2.1.getD
          (addr_index config a) []).getD j 0) ∧
    (lineAt ((access_cache (runGhost config tr (init_cache config) (init_ghost config) 0).1
          config 'R' a zeroStats).1.getD (addr_index config a) [])
        (find_lru_victim ((runGhost config tr (init_cache config) (init_ghost config) 0).1.getD
          (addr_index config a) []))).tag
      = addr_tag config a ∧
    (∀ j, j < ((runGhost config tr (init_cache config) (init_ghost config) 0).1.getD
          (addr_index config a) []).length →
      j ≠ find_lru_victim ((runGhost config tr (init_cache config) (init_ghost config) 0).1.getD
          (addr_index config a) []) →
      (lineAt ((access_cache (runGhost config tr (init_cache config) (init_ghost config) 0).1
            config 'R' a zeroStats).1.getD (addr_index config a) []) j).tag
        = (lineAt ((runGhost config tr (init_cache config) (init_ghost config) 0).1.getD
            (addr_index config a) []) j).tag ∧
      (lineAt ((access_cache (runGhost config tr (init_cache config) (init_ghost config) 0).1
            config 'R' a zeroStats).1.getD (addr_index config a) []) j).valid = true) := by
  have hrun := runInv_runGhost tr (init_cache config) (init_ghost config) 0 (runInv_init config)
  have hlen1 : (runGhost config tr (init_cache config) (init_ghost config) 0).1.length
      = config.num_sets := by
    rw [runGhost_cache_length]
    simp [init_cache]
  have hidx1 : addr_index config a
      < (runGhost config tr (init_cache config) (init_ghost config) 0).1.length := by
    rw [hlen1]
    exact hidx
  obtain ⟨hset, hg⟩ := hrun.2 _ hidx1
  have hslen : ((runGhost config tr (init_cache config) (init_ghost config) 0).1.getD
      (addr_index config a) []).length = config.associativity := hset.1
  have h0 : 0 < ((runGhost config tr (init_cache config) (init_ghost config) 0).1.getD
      (addr_index config a) []).length := by omega
  have hvlt := find_lru_victim_lt h0
  have hmin := find_lru_victim_full hfull h0
  have hvv := hfull _ hvlt
  have hv1 : find_lru_victim ((runGhost config tr (init_cache config) (init_ghost config) 0).1.getD
      (addr_index config a) [])
      < (((runGhost config tr (init_cache config) (init_ghost config) 0).1.getD
          (addr_index config a) []).set
        (find_lru_victim ((runGhost config tr (init_cache config) (init_ghost config) 0).1.getD
          (addr_index config a) []))
        { lineAt ((runGhost config tr (init_cache config) (init_ghost config) 0).1.getD
              (addr_index config a) [])
            (find_lru_victim ((runGhost config tr (init_cache config) (init_ghost config) 0).1.getD
              (addr_index config a) [])) with
          valid := true, tag := addr_tag config a }).length := by
    rw [List.length_set]
    exact hvlt
  refine ⟨hvlt, ?_, ?_, ?_⟩
  · intro j hj hne
    have hjv := hfull _ hj
    have hcle := hmin.2.1 j hj
    have hcne := (hset.2.2.2 _ j hvlt hj (fun h => hne h.symm) hvv hjv).2
    have hclt := lt_of_le_of_ne hcle hcne
    exact (hg.2.2 _ j hvlt hj hvv hjv).mp hclt
  · rw [access_cache_read_miss (Or.inl rfl) hmiss, getD_set_self hidx1]
    rw [update_lru_tag hv1 hv1, lineAt_set_self hvlt]
  · intro j hj hne
    have hj1 : j < (((runGhost config tr (init_cache config) (init_ghost config) 0).1.getD
        (addr_index config a) []).set
        (find_lru_victim ((runGhost config tr (init_cache config) (init_ghost config) 0).1.getD
          (addr_index config a) []))
        { lineAt ((runGhost config tr (init_cache config) (init_ghost config) 0).1.getD
              (addr_index config a) [])
            (find_lru_victim ((runGhost config tr (init_cache config) (init_ghost config) 0).1.getD
              (addr_index config a) [])) with
          valid := true, tag := addr_tag config a }).length := by
      rw [List.length_set]
      exact hj
    constructor
    · rw [access_cache_read_miss (Or.inl rfl) hmiss, getD_set_self hidx1]
      rw [update_lru_tag hj1 hv1, lineAt_set_ne (fun h => hne h.symm)]
    · rw [access_cache_read_miss (Or.inl rfl) hmiss, getD_set_self hidx1]
      rw [update_lru_valid hj1 hv1, lineAt_set_ne (fun h => hne h.symm)]
      exact hfull _ hj

/-- Witness for C1: two reads fill set 0 of a 4x2 cache, then a read of a
third tag evicts way 0, whose last touch (step 0) is oldest. -/
theorem claim_true_lru_eviction_witness :
    (0 < (mkConfig 4 2 16).associativity ∧
     addr_index (mkConfig 4 2 16) 0x80 < (mkConfig 4 2 16).num_sets ∧
     (∀ i, i < ((runGhost (mkConfig 4 2 16) [('R', 0x00), ('R', 0x40)] (init_cache (mkConfig 4 2 16)) (init_ghost (mkConfig 4 2 16)) 0).1.getD (addr_index (mkConfig 4 2 16) 0x80) []).length → (lineAt ((runGhost (mkConfig 4 2 16) [('R', 0x00), ('R', 0x40)] (init_cache (mkConfig 4 2 16)) (init_ghost (mkConfig 4 2 16)) 0).1.getD (addr_index (mkConfig 4 2 16) 0x80) []) i).valid = true) ∧
     lookup ((runGhost (mkConfig 4 2 16) [('R', 0x00), ('R', 0x40)] (init_cache (mkConfig 4 2 16)) (init_ghost (mkConfig 4 2 16)) 0).1.getD (addr_index (mkConfig 4 2 16) 0x80) []) (addr_tag (mkConfig 4 2 16) 0x80) = none) ∧
    ((find_lru_victim ((runGhost (mkConfig 4 2 16) [('R', 0x00), ('R', 0x40)] (init_cache (mkConfig 4 2 16)) (init_ghost (mkConfig 4 2 16)) 0).1.getD (addr_index (mkConfig 4 2 16) 0x80) [])) < ((runGhost (mkConfig 4 2 16) [('R', 0x00), ('R', 0x40)] (init_cache (mkConfig 4 2 16)) (init_ghost (mkConfig 4 2 16)) 0).1.getD (addr_index (mkConfig 4 2 16) 0x80) []).length ∧
     (∀ j, j < ((runGhost (mkConfig 4 2 16) [('R', 0x00), ('R', 0x40)] (init_cache (mkConfig 4 2 16)) (init_ghost (mkConfig 4 2 16)) 0).1.getD (addr_index (mkConfig 4 2 16) 0x80) []).length → j ≠ (find_lru_victim ((runGhost (mkConfig 4 2 16) [('R', 0x00), ('R', 0x40)] (init_cache (mkConfig 4 2 16)) (init_ghost (mkConfig 4 2 16)) 0).1.getD (addr_index (mkConfig 4 2 16) 0x80) [])) →
        ((runGhost (mkConfig 4 2 16) [('R', 0x00), ('R', 0x40)] (init_cache (mkConfig 4 2 16)) (init_ghost (mkConfig 4 2 16)) 0).2.1.getD (addr_index (mkConfig 4 2 16) 0x80) []).getD (find_lru_victim ((runGhost (mkConfig 4 2 16) [('R', 0x00), ('R', 0x40)] (init_cache (mkConfig 4 2 16)) (init_ghost (mkConfig 4 2 16)) 0).1.getD (addr_index (mkConfig 4 2 16) 0x80) [])) 0 < ((runGhost (mkConfig 4 2 16) [('R', 0x00), ('R', 0x40)] (init_cache (mkConfig 4 2 16)) (init_ghost (mkConfig 4 2 16)) 0).2.1.getD (addr_index (mkConfig 4 2 16) 0x80) []).getD j 0) ∧
     (lineAt ((access_cache (runGhost (mkConfig 4 2 16) [('R', 0x00), ('R', 0x40)] (init_cache (mkConfig 4 2 16)) (init_ghost (mkConfig 4 2 16)) 0).1 (mkConfig 4 2 16) 'R' 0x80 zeroStats).1.getD (addr_index (mkConfig 4 2 16) 0x80) []) (find_lru_victim ((runGhost (mkConfig 4 2 16) [('R', 0x00), ('R', 0x40)] (init_cache (mkConfig 4 2 16)) (init_ghost (mkConfig 4 2 16)) 0).1.getD (addr_index (mkConfig 4 2 16) 0x80) []))).tag = addr_tag (mkConfig 4 2 16) 0x80 ∧
     (∀ j, j < ((runGhost (mkConfig 4 2 16) [('R', 0x00), ('R', 0x40)] (init_cache (mkConfig 4 2 16)) (init_ghost (mkConfig 4 2 16)) 0).1.getD (addr_index (mkConfig 4 2 16) 0x80) []).length → j ≠ (find_lru_victim ((runGhost (mkConfig 4 2 16) [('R', 0x00), ('R', 0x40)] (init_cache (mkConfig 4 2 16)) (init_ghost (mkConfig 4 2 16)) 0).1.getD (addr_index (mkConfig 4 2 16) 0x80) [])) →
        (lineAt ((access_cache (runGhost (mkConfig 4 2 16) [('R', 0x00), ('R', 0x40)] (init_cache (mkConfig 4 2 16)) (init_ghost (mkConfig 4 2 16)) 0).1 (mkConfig 4 2 16) 'R' 0x80 zeroStats).1.getD (addr_index (mkConfig 4 2 16) 0x80) []) j).tag = (lineAt ((runGhost (mkConfig 4 2 16) [('R', 0x00), ('R', 0x40)] (init_cache (mkConfig 4 2 16)) (init_ghost (mkConfig 4 2 16)) 0).1.getD (addr_index (mkConfig 4 2 16) 0x80) []) j).tag ∧
        (lineAt ((access_cache (runGhost (mkConfig 4 2 16) [('R', 0x00), ('R', 0x40)] (init_cache (mkConfig 4 2 16)) (init_ghost (mkConfig 4 2 16)) 0).1 (mkConfig 4 2 16) 'R' 0x80 zeroStats).1.getD (addr_index (mkConfig 4 2 16) 0x80) []) j).valid = true)) :=
  ⟨⟨by decide, by decide, by decide, by decide⟩,
   claim_true_lru_eviction (mkConfig 4 2 16) [('R', 0x00), ('R', 0x40)] 0x80
     (by decide) (by decide) (by decide) (by decide)⟩

end DataCacheSim
